import Mathlib

/-!
Verification development for the luacInJs repository (src/index.js), a Lua 5.1
bytecode interpreter written in JavaScript.  The definitions below are a
shallow embedding of the source: JavaScript numbers (IEEE-754 doubles) are
modelled by an exact-rational type extended with the special values
Infinity, -Infinity and NaN; transcendental double operations (non-integral
exponents of `**`) are abstracted (see `jsPow`); JavaScript object identity,
where the source relies on it, is modelled by explicit reference ids
allocated from a heap; JavaScript exceptions (TypeError, ReferenceError) are
modelled by an explicit error constructor, since the source - in several
places - reads undeclared variables or properties of `undefined`.
Mutable objects (tables, up-value cells, coroutines, closures) live in an
explicit heap threaded through a state monad; the interpreter is fuelled.
-/

namespace LuacInJs

/-! ## Exact rationals with structural (kernel-reducible) arithmetic

The denominator is kept positive by construction and fractions are not
normalised; value equality is by cross-multiplication, matching numeric
(not structural) equality of JavaScript numbers. -/

structure Q where
  num : Int
  den : Nat
deriving DecidableEq, Repr

def qI (n : Int) : Q := ⟨n, 1⟩

def qAdd (a b : Q) : Q := ⟨a.num * b.den + b.num * a.den, a.den * b.den⟩

def qSub (a b : Q) : Q := ⟨a.num * b.den - b.num * a.den, a.den * b.den⟩

def qMul (a b : Q) : Q := ⟨a.num * b.num, a.den * b.den⟩

def qNeg (a : Q) : Q := ⟨-a.num, a.den⟩

/-- Division a / b for b with nonzero numerator: (a.num * b.den) / (a.den * b.num),
with the sign moved into the numerator to keep the denominator positive. -/
def qDiv (a b : Q) : Q :=
  if b.num < 0 then ⟨-(a.num * b.den), a.den * b.num.natAbs⟩
  else ⟨a.num * b.den, a.den * b.num.natAbs⟩

def qEqb (a b : Q) : Bool := a.num * b.den == b.num * a.den

def qLtb (a b : Q) : Bool := a.num * b.den < b.num * a.den

def qLeb (a b : Q) : Bool := a.num * b.den ≤ b.num * a.den

/-- Number.isInteger: the value is an integer. -/
def qIsInt (a : Q) : Bool := a.num % (a.den : Int) == 0

/-- Truncation toward zero (the rounding of JavaScript's `Math.trunc` and of
the `%` remainder). -/
def qTrunc (a : Q) : Int :=
  if a.num < 0 then -((-a.num).ediv a.den) else a.num.ediv a.den

/-- Floor (exact, denominators are positive). -/
def qFloor (a : Q) : Int := a.num.ediv a.den

def qIsZero (a : Q) : Bool := a.num == 0

def qIsNeg (a : Q) : Bool := a.num < 0

/-! ## JavaScript numbers -/

inductive JSNum where
  | fin (q : Q)
  | inf
  | neginf
  | nan
deriving DecidableEq, Repr

def jsNat (n : Nat) : JSNum := .fin (qI n)

def JSNum.isNaN : JSNum → Bool
  | .nan => true
  | _ => false

/-- Strict equality `===` on numbers: NaN is not equal to anything. -/
def jsEqb : JSNum → JSNum → Bool
  | .fin a, .fin b => qEqb a b
  | .inf, .inf => true
  | .neginf, .neginf => true
  | _, _ => false

def jsLtb : JSNum → JSNum → Bool
  | .fin a, .fin b => qLtb a b
  | .fin _, .inf => true
  | .neginf, .fin _ => true
  | .neginf, .inf => true
  | _, _ => false

def jsLeb : JSNum → JSNum → Bool
  | .fin a, .fin b => qLeb a b
  | .fin _, .inf => true
  | .neginf, .fin _ => true
  | .neginf, .inf => true
  | .inf, .inf => true
  | .neginf, .neginf => true
  | _, _ => false

def jsAdd : JSNum → JSNum → JSNum
  | .fin a, .fin b => .fin (qAdd a b)
  | .inf, .neginf => .nan
  | .neginf, .inf => .nan
  | .inf, .fin _ => .inf
  | .fin _, .inf => .inf
  | .inf, .inf => .inf
  | .neginf, .fin _ => .neginf
  | .fin _, .neginf => .neginf
  | .neginf, .neginf => .neginf
  | _, _ => .nan

def jsSub : JSNum → JSNum → JSNum
  | .fin a, .fin b => .fin (qSub a b)
  | .inf, .inf => .nan
  | .neginf, .neginf => .nan
  | .inf, _ => .inf
  | .neginf, _ => .neginf
  | .fin _, .inf => .neginf
  | .fin _, .neginf => .inf
  | _, _ => .nan

def jsNeg : JSNum → JSNum
  | .fin a => .fin (qNeg a)
  | .inf => .neginf
  | .neginf => .inf
  | .nan => .nan

def jsMul : JSNum → JSNum → JSNum
  | .fin a, .fin b => .fin (qMul a b)
  | .inf, .fin b => if qIsZero b then .nan else if qIsNeg b then .neginf else .inf
  | .fin a, .inf => if qIsZero a then .nan else if qIsNeg a then .neginf else .inf
  | .neginf, .fin b => if qIsZero b then .nan else if qIsNeg b then .inf else .neginf
  | .fin a, .neginf => if qIsZero a then .nan else if qIsNeg a then .inf else .neginf
  | .inf, .inf => .inf
  | .inf, .neginf => .neginf
  | .neginf, .inf => .neginf
  | .neginf, .neginf => .inf
  | _, _ => .nan

/-- JavaScript `/`.  The zero-denominator cases follow IEEE-754
(x / 0 is a signed infinity, 0 / 0 is NaN); the model carries no signed
zero, a documented abstraction. -/
def jsDiv : JSNum → JSNum → JSNum
  | .fin a, .fin b =>
      if qIsZero b then
        if qIsZero a then .nan else if qIsNeg a then .neginf else .inf
      else .fin (qDiv a b)
  | .fin _, .inf => .fin (qI 0)
  | .fin _, .neginf => .fin (qI 0)
  | .inf, .fin b => if qIsNeg b then .neginf else .inf
  | .neginf, .fin b => if qIsNeg b then .inf else .neginf
  | _, _ => .nan

/-- JavaScript `%` (remainder, sign of the dividend):
a - b * trunc(a / b). -/
def jsMod : JSNum → JSNum → JSNum
  | .fin a, .fin b =>
      if qIsZero b then .nan
      else .fin (qSub a (qMul b (qI (qTrunc (qDiv a b)))))
  | .fin a, .inf => .fin a
  | .fin a, .neginf => .fin a
  | _, _ => .nan

/-- Integer powers of an exact rational (negative exponents invert; the base
is assumed nonzero for negative exponents, guarded at use sites). -/
def qPowInt (a : Q) (n : Int) : Q :=
  match n with
  | .ofNat k => ⟨a.num ^ k, a.den ^ k⟩
  | .negSucc k =>
      let p : Q := ⟨a.num ^ (k + 1), a.den ^ (k + 1)⟩
      qDiv (qI 1) p

/-- Finite-exponent part of JavaScript `**` (exponent known nonzero).
A finite base with a non-integral exponent is a transcendental double
computation; the model abstracts that case as NaN (a documented
abstraction - no claim depends on it). -/
def jsPowBase (b : JSNum) (e : Q) : JSNum :=
  match b with
  | .nan => .nan
  | .inf => if qIsNeg e then .fin (qI 0) else .inf
  | .neginf =>
      if qIsNeg e then .fin (qI 0)
      else if qIsInt e && (qTrunc e) % 2 == 1 then .neginf else .inf
  | .fin q =>
      if qIsInt e then
        if qIsZero q && qIsNeg e then .inf
        else .fin (qPowInt q (qTrunc e))
      else .nan

/-- JavaScript `**`.  Special cases follow the ECMAScript specification
(an exponent of 0 gives 1 even for a NaN base; a base of magnitude 1 with an
infinite exponent gives NaN). -/
def jsPow (b e : JSNum) : JSNum :=
  match e with
  | .fin eq => if qIsZero eq then .fin (qI 1) else jsPowBase b eq
  | .inf =>
      match b with
      | .fin q => if qEqb q (qI 1) || qEqb q (qI (-1)) then .nan
          else if qLtb (qI (-1)) q && qLtb q (qI 1) then .fin (qI 0) else .inf
      | .nan => .nan
      | _ => .inf
  | .neginf =>
      match b with
      | .fin q => if qEqb q (qI 1) || qEqb q (qI (-1)) then .nan
          else if qLtb (qI (-1)) q && qLtb q (qI 1) then .inf else .fin (qI 0)
      | .nan => .nan
      | _ => .fin (qI 0)
  | .nan => .nan

/-! ## Byte strings and number formatting / parsing -/

def asciiBytes (s : String) : List Nat := s.data.map Char.toNat

/-- Decimal digits (ASCII) of a natural number, most significant first
(fuelled division loop; the fuel n + 1 always suffices). -/
def natDigitsAux : Nat → Nat → List Nat
  | 0, _ => []
  | fuel + 1, n => if n < 10 then [48 + n] else natDigitsAux fuel (n / 10) ++ [48 + n % 10]

def natDigits (n : Nat) : List Nat := natDigitsAux (n + 1) n

def intToDecBytes (i : Int) : List Nat :=
  if i < 0 then 45 :: natDigits i.natAbs else natDigits i.toNat

/-- String(n) for a JavaScript number.  Integral finite values render as
their exact decimal digits and the special values by their literal names;
the shortest-round-trip formatting of non-integral doubles (including the
exponent notation for very large or small magnitudes) is abstracted by an
exact fraction rendering.  No claim depends on the non-integral case. -/
def jsNumToString : JSNum → List Nat
  | .inf => asciiBytes "Infinity"
  | .neginf => asciiBytes "-Infinity"
  | .nan => asciiBytes "NaN"
  | .fin q =>
      if qIsInt q then intToDecBytes (qTrunc q)
      else intToDecBytes q.num ++ [47] ++ natDigits q.den

/-- Uint8Array.prototype.toString: the elements in decimal, joined by commas
(this is what `String(someUint8Array)` produces). -/
def commaJoinBytes : List Nat → List Nat
  | [] => []
  | [b] => natDigits b
  | b :: r => natDigits b ++ [44] ++ commaJoinBytes r

/-- TextEncoder().encode applied to a JavaScript string whose UTF-16 code
units are all below 256 (the form String.fromCharCode produces from bytes):
units below 0x80 encode as themselves, units 0x80-0xFF as two UTF-8 bytes. -/
def encodeLatin1 : List Nat → List Nat
  | [] => []
  | b :: r => (if b < 128 then [b] else [192 + b / 64, 128 + b % 64]) ++ encodeLatin1 r

def isWsByte (b : Nat) : Bool := b == 32 || (9 ≤ b && b ≤ 13)

def trimWs (l : List Nat) : List Nat :=
  ((l.dropWhile isWsByte).reverse.dropWhile isWsByte).reverse

def isDigitByte (b : Nat) : Bool := 48 ≤ b && b ≤ 57

def digitsToNat (ds : List Nat) : Nat := ds.foldl (fun a d => a * 10 + (d - 48)) 0

def hexDigitVal (b : Nat) : Option Nat :=
  if 48 ≤ b && b ≤ 57 then some (b - 48)
  else if 97 ≤ b && b ≤ 102 then some (b - 87)
  else if 65 ≤ b && b ≤ 70 then some (b - 55)
  else none

def parseHexDigits : List Nat → Option Nat
  | [] => none
  | l => go l 0
where
  go : List Nat → Nat → Option Nat
    | [], acc => some acc
    | b :: r, acc =>
        match hexDigitVal b with
        | some v => go r (acc * 16 + v)
        | none => none

/-- Optional exponent part of a decimal literal, applied to the mantissa. -/
def parseExpPart (l : List Nat) (m : Q) : Option Q :=
  match l with
  | [] => some m
  | e :: r =>
      if e == 101 || e == 69 then
        let (neg, r2) :=
          match r with
          | 43 :: r' => (false, r')
          | 45 :: r' => (true, r')
          | _ => (false, r)
        let ds := r2.takeWhile isDigitByte
        let rest := r2.dropWhile isDigitByte
        if ds.isEmpty || !rest.isEmpty then none
        else
          let ex : Int := if neg then -(digitsToNat ds : Int) else (digitsToNat ds : Int)
          some (qMul m (qPowInt (qI 10) ex))
      else none

/-- Unsigned decimal literal: digits, an optional fraction, an optional
exponent. -/
def parseDec (l : List Nat) : Option Q :=
  let ip := l.takeWhile isDigitByte
  let r1 := l.dropWhile isDigitByte
  match r1 with
  | 46 :: r2 =>
      let fp := r2.takeWhile isDigitByte
      let r3 := r2.dropWhile isDigitByte
      if ip.isEmpty && fp.isEmpty then none
      else parseExpPart r3 ⟨(digitsToNat (ip ++ fp) : Int), 10 ^ fp.length⟩
  | _ => if ip.isEmpty then none else parseExpPart r1 ⟨(digitsToNat ip : Int), 1⟩

def parseSignedBody (u : List Nat) (neg : Bool) : JSNum :=
  if u = asciiBytes "Infinity" then (if neg then .neginf else .inf)
  else
    match parseDec u with
    | some q => .fin (if neg then qNeg q else q)
    | none => .nan

/-- Number(str) on a JavaScript string given by its code units: trim
whitespace, the empty string is 0, then a hexadecimal literal (no sign
allowed), or an optionally signed decimal literal or Infinity; anything
else is NaN. -/
def jsParseNumber (l : List Nat) : JSNum :=
  let t := trimWs l
  if t.isEmpty then .fin (qI 0)
  else
    match t with
    | 48 :: 120 :: rest =>
        (match parseHexDigits rest with
         | some v => .fin (qI v)
         | none => .nan)
    | 48 :: 88 :: rest =>
        (match parseHexDigits rest with
         | some v => .fin (qI v)
         | none => .nan)
    | 43 :: rest => parseSignedBody rest false
    | 45 :: rest => parseSignedBody rest true
    | _ => parseSignedBody t false

/-! ## The value model

Values are `LVBase` subclasses in the source.  Mutable objects are
represented by ids into an explicit heap; `str` carries the identity of its
backing Uint8Array (`this.value`) together with the byte content, since the
source shares or compares that array by reference.  `undef` is the
JavaScript value `undefined`, which the interpreter can store and read
(out-of-range register and constant reads produce it); `tup` is an
`LVTuple` object, which registers can also hold.  Host functions are
identified by a tag; each is registered once, so tag equality coincides
with JavaScript object identity. -/

inductive HostFn where
  | coroutine_create
  | coroutine_resume
  | coroutine_yield
deriving DecidableEq, Repr

inductive LV where
  | undef
  | nil
  | boolean (b : Bool)
  | num (x : JSNum)
  | str (ref : Nat) (bytes : List Nat)
  | table (id : Nat)
  | hostfn (f : HostFn)
  | closure (id : Nat)
  | coro (id : Nat)
  | tup (vs : List LV)

structure Pos where
  fileName : Option (List Nat)
  line : Option Nat
deriving DecidableEq, Repr

/-- Exceptions: `luaYield` is the LuaYield unwind token, `luaErr` a LuaError,
`formatErr` a LuaCFormatError, `jsErr` a host-language exception (the source
throws TypeError by calling methods of `undefined` and ReferenceError by
reading undeclared variables), and `noFuel` the fuel guard of the model. -/
inductive Exc where
  | luaYield (vals : List LV)
  | luaErr (pos : Pos) (msg : String)
  | formatErr (msg : String)
  | jsErr (kind : String)
  | noFuel

def typeName : LV → String
  | .nil => "nil"
  | .boolean _ => "boolean"
  | .num _ => "number"
  | .str _ _ => "string"
  | .table _ => "table"
  | .hostfn _ => "function"
  | .closure _ => "function"
  | .coro _ => "thread"
  | .undef => "undefined"
  | .tup _ => "undefined"

/-- Reading `.type` of a value: on `undefined` this throws; an LVTuple has no
such property, so interpolation renders it as the text undefined. -/
def jsTypeField : LV → Except Exc String
  | .undef => .error (.jsErr "TypeError")
  | v => .ok (typeName v)

/-! ## Keys and tables -/

/-- Result of the source's `unwrap` on a stored value: tuples give their JS
array of values, strings decode to their byte content (the model treats
TextDecoder decoding as the identity on bytes), wrapped primitives give
their raw value, and objects without a `value` property give undefined. -/
inductive JSKey where
  | num (x : JSNum)
  | strk (s : List Nat)
  | boolk (b : Bool)
  | nullk
  | undefk
  | arrk (vs : List LV)
  | funk (f : HostFn)

def unwrapLV : LV → JSKey
  | .tup vs => .arrk vs
  | .str _ b => .strk b
  | .num x => .num x
  | .boolean b => .boolk b
  | .nil => .nullk
  | .hostfn f => .funk f
  | .table _ => .undefk
  | .closure _ => .undefk
  | .coro _ => .undefk
  | .undef => .undefk

def hostFnName : HostFn → String
  | .coroutine_create => "create"
  | .coroutine_resume => "resume"
  | .coroutine_yield => "yield"

/-- Rendering of one element inside Array.prototype.toString: undefined
renders empty, plain objects as the object placeholder.  The recursive
rendering of a nested array is abstracted by a fixed placeholder (a
documented abstraction; no claim reaches it). -/
def lvPropPiece : LV → List Nat
  | .undef => []
  | .tup _ => asciiBytes "[array]"
  | _ => asciiBytes "[object Object]"

def lvJoinBytes : List LV → List Nat
  | [] => []
  | [v] => lvPropPiece v
  | v :: r => lvPropPiece v ++ [44] ++ lvJoinBytes r

/-- JavaScript property-name coercion String(key) of an unwrapped key, as
used by the source's plain-object hash part.  Function source text is
abstracted by the function's registration name. -/
def propKeyBytes : JSKey → List Nat
  | .num x => jsNumToString x
  | .strk s => s
  | .boolk true => asciiBytes "true"
  | .boolk false => asciiBytes "false"
  | .nullk => asciiBytes "null"
  | .undefk => asciiBytes "undefined"
  | .arrk vs => lvJoinBytes vs
  | .funk f => asciiBytes "function " ++ asciiBytes (hostFnName f)

def assocGet {κ α : Type} [DecidableEq κ] : List (κ × α) → κ → Option α
  | [], _ => none
  | (k, v) :: t, i => if k = i then some v else assocGet t i

def assocSet {κ α : Type} [DecidableEq κ] : List (κ × α) → κ → α → List (κ × α)
  | [], i, v => [(i, v)]
  | (k, w) :: t, i, v => if k = i then (i, v) :: t else (k, w) :: assocSet t i v

/-- A table: the sparse JS array part (integer keys at least 1), the plain
object hash part (keyed by the coerced property name), the insertion-order
key log, and the metatable field (`null` is none; the source assigns the
value given to setmetatable unchecked, so any value can end up here). -/
structure TableData where
  arr : List (Nat × LV)
  hash : List (List Nat × LV)
  keyOrder : List JSKey
  meta : Option LV

def emptyTable : TableData := { arr := [], hash := [], keyOrder := [], meta := none }

/-- An integer key of the array part: `typeof key === "number" && key >= 1
&& Number.isInteger(key)`. -/
def isArrKey : JSKey → Option Nat
  | .num (.fin q) => if qLeb (qI 1) q && qIsInt q then some (qTrunc q).toNat else none
  | _ => none

/-- LVTable.rawGet: a stored `undefined` (like an absent key) is replaced by
a fresh nil, by the `?? new LVNil()` of the source. -/
def rawGetD (t : TableData) (k : JSKey) : LV :=
  match isArrKey k with
  | some i =>
      (match assocGet t.arr i with
       | some .undef => .nil
       | some v => v
       | none => .nil)
  | none =>
      (match assocGet t.hash (propKeyBytes k) with
       | some .undef => .nil
       | some v => v
       | none => .nil)

/-- LVTable.rawSet: the key-order log is extended when the key was not yet
present; the value - including an explicit nil - is always stored (nothing
is ever removed). -/
def rawSetD (t : TableData) (k : JSKey) (v : LV) : TableData :=
  match isArrKey k with
  | some i =>
      if (assocGet t.arr i).isSome then { t with arr := assocSet t.arr i v }
      else { t with arr := assocSet t.arr i v, keyOrder := t.keyOrder ++ [k] }
  | none =>
      let pk := propKeyBytes k
      if (assocGet t.hash pk).isSome then { t with hash := assocSet t.hash pk v }
      else { t with hash := assocSet t.hash pk v, keyOrder := t.keyOrder ++ [k] }

/-- The condition of LVTable.len's while loop: `this.array[i] !== undefined`
(a stored nil counts; a hole or a stored undefined does not). -/
def occupied (t : TableData) (i : Nat) : Bool :=
  match assocGet t.arr i with
  | some .undef => false
  | some _ => true
  | none => false

def maxArrKey (t : TableData) : Nat := t.arr.foldr (fun p m => max p.1 m) 0

def lenFrom (t : TableData) : Nat → Nat → Nat
  | i, 0 => i - 1
  | i, fuel + 1 => if occupied t i then lenFrom t (i + 1) fuel else i - 1

/-- LVTable.len: the first index from 1 whose array slot is not occupied,
minus one.  The loop always stops by index maxArrKey + 1, so the fuel is
never exhausted. -/
def tblLen (t : TableData) : Nat := lenFrom t 1 (maxArrKey t + 2)

/-! ## Up-value cells (LVUpValue)

An open cell aliases a register of the owning coroutine's register file
(`parentRegs` plus `index`); a closed cell owns its value.  The `value`
field starts as JS null, modelled by `undef`; `close` nulls out the alias
fields. -/

structure UVData where
  isOpen : Bool
  owner : Option Nat
  index : Option Nat
  value : LV

/-- A JS array read through a possibly-null index: `regs[null]` reads a
missing property and gives undefined, as does an out-of-range index. -/
def jsIndexOpt (regs : List LV) : Option Nat → LV
  | none => .undef
  | some i => ((regs.get? i).getD .undef : LV)

/-- A JS array write, growing the array with undefined holes when the index
is beyond the end. -/
def setIdx (regs : List LV) (i : Nat) (v : LV) : List LV :=
  if i < regs.length then regs.set i v
  else (regs ++ List.replicate (i - regs.length) .undef) ++ [v]

def uvGet (uv : UVData) (regs : List LV) : LV :=
  if uv.isOpen then jsIndexOpt regs uv.index else uv.value

def uvSet (uv : UVData) (regs : List LV) (v : LV) : UVData × List LV :=
  if uv.isOpen then
    match uv.index with
    | some i => (uv, setIdx regs i v)
    | none => (uv, regs)
  else ({ uv with value := v }, regs)

def uvClose (uv : UVData) (regs : List LV) : UVData :=
  if uv.isOpen then
    { isOpen := false, owner := none, index := none, value := jsIndexOpt regs uv.index }
  else uv

/-! ## Prototypes, closures, coroutines, the heap -/

/-- The record returned by readPrototype, minus the nested-prototype list,
which is held by the wrapping inductive `Proto` (a structure cannot be
recursive). -/
structure ProtoCore where
  fileName : Option (List Nat)
  lineDefined : Int
  lastLineDefined : Int
  upValueCount : Nat
  paramCount : Nat
  isVarArg : Bool
  maxStackSize : Nat
  insts : List Nat
  constants : List LV
  lineInfo : List Nat
  locals : List (Option (List Nat) × Nat × Nat)
  upValueNames : List (Option (List Nat))

inductive Proto where
  | mk (core : ProtoCore) (nestedProtos : List Proto)

def Proto.core : Proto → ProtoCore
  | .mk c _ => c

def Proto.nestedProtos : Proto → List Proto
  | .mk _ n => n

/-- An LVClosure: the prototype and `new Array(upValueCount)` of up-value
cell ids; array holes are none. -/
structure ClosData where
  proto : Proto
  upvals : List (Option Nat)

inductive CoStatus where
  | suspended
  | running
  | dead
deriving DecidableEq, Repr

/-- The `args` field of an LVCoroutine.  The constructor parameter is
`args ?? []`; when `call` constructs a coroutine for a closure it spreads
the argument list into the two-parameter constructor, so the field receives
the first argument value itself rather than an array (see `callValue`). -/
inductive CoArgs where
  | arr (l : List LV)
  | obj (v : LV)

structure CoroData where
  closure : Nat
  status : CoStatus
  args : CoArgs
  pc : Int
  top : JSNum
  regs : List LV
  openUps : List Nat

structure Heap where
  tables : List (Nat × TableData)
  upvals : List (Nat × UVData)
  closures : List (Nat × ClosData)
  coros : List (Nat × CoroData)
  nextRef : Nat

def emptyHeap : Heap := { tables := [], upvals := [], closures := [], coros := [], nextRef := 0 }

abbrev M (α : Type) := ExceptT Exc (StateT Heap Id) α

def allocRef : M Nat := do
  let σ ← get
  set { σ with nextRef := σ.nextRef + 1 }
  pure σ.nextRef

/-- The LVString constructor on a JavaScript string: TextEncoder encoding of
the code units, and a fresh backing-array identity. -/
def newLVString (units : List Nat) : M LV := do
  pure (.str (← allocRef) (encodeLatin1 units))

def getTableM (id : Nat) : M TableData := do
  match assocGet (← get).tables id with
  | some t => pure t
  | none => throw (.jsErr "TypeError")

def setTableM (id : Nat) (t : TableData) : M Unit :=
  modify fun σ => { σ with tables := assocSet σ.tables id t }

def allocTable (t : TableData) : M Nat := do
  let r ← allocRef
  setTableM r t
  pure r

def getUVM (id : Nat) : M UVData := do
  match assocGet (← get).upvals id with
  | some u => pure u
  | none => throw (.jsErr "TypeError")

def setUVM (id : Nat) (u : UVData) : M Unit :=
  modify fun σ => { σ with upvals := assocSet σ.upvals id u }

def getClosM (id : Nat) : M ClosData := do
  match assocGet (← get).closures id with
  | some c => pure c
  | none => throw (.jsErr "TypeError")

def setClosM (id : Nat) (c : ClosData) : M Unit :=
  modify fun σ => { σ with closures := assocSet σ.closures id c }

def getCoroM (id : Nat) : M CoroData := do
  match assocGet (← get).coros id with
  | some c => pure c
  | none => throw (.jsErr "TypeError")

def setCoroM (id : Nat) (c : CoroData) : M Unit :=
  modify fun σ => { σ with coros := assocSet σ.coros id c }

/-! ## Small value operations (wrap, unwrap, coercions) -/

/-- The source's `wrap` on a value the VM already holds: LVBase instances
pass through, undefined falls to the default case and becomes nil.  (An
LVTuple would build and then discard a table, the `case "object"` falling
through to the default; no embedded path wraps a tuple.) -/
def wrapLVPure : LV → LV
  | .undef => .nil
  | .tup _ => .nil
  | v => v

/-- The `normalize` helper: a tuple gives its values, anything else a
one-element list of its wrap. -/
def normalize : LV → List LV
  | .tup vs => vs
  | v => [wrapLVPure v]

/-- The `first` helper of runCoroutine. -/
def firstVal : LV → LV
  | .tup vs => (vs.get? 0).getD .undef
  | v => v

/-- Calling `.truthy()`: undefined and LVTuple have no such method. -/
def truthyE : LV → Except Exc Bool
  | .undef => .error (.jsErr "TypeError")
  | .tup _ => .error (.jsErr "TypeError")
  | .nil => .ok false
  | .boolean b => .ok b
  | _ => .ok true

/-- Calling `.asNumber(context)`: numbers copy themselves, strings go
through Number() with the NaN check, other LVBase values give nil. -/
def asNumberE : LV → Except Exc LV
  | .undef => .error (.jsErr "TypeError")
  | .tup _ => .error (.jsErr "TypeError")
  | .num x => .ok (.num x)
  | .str _ s =>
      let n := jsParseNumber s
      if n.isNaN then .ok .nil else .ok (.num n)
  | _ => .ok .nil

/-- getMeta: only tables can end up with a metatable in this implementation
(setmetatable rejects non-tables and the constructors set null), so other
values answer none; a metatable field holding a non-table object makes the
rawGet call throw. -/
def getMetaM (v : LV) (name : String) : M (Option LV) := do
  match v with
  | .undef => throw (.jsErr "TypeError")
  | .table id =>
      let t ← getTableM id
      match t.meta with
      | none => pure none
      | some (.table mid) =>
          let mt ← getTableM mid
          pure (some (rawGetD mt (.strk (asciiBytes name))))
      | some _ => throw (.jsErr "TypeError")
  | _ => pure none

/-! ## Instruction decoding -/

structure Inst where
  opcode : Nat
  A : Nat
  B : Nat
  C : Nat
  Bx : Nat
  sBx : Int
deriving DecidableEq, Repr

def decodeInst (w : Nat) : Inst :=
  { opcode := w &&& 63
    A := (w >>> 6) &&& 255
    C := (w >>> 14) &&& 511
    B := (w >>> 23) &&& 511
    Bx := w >>> 14
    sBx := ((w >>> 14 : Nat) : Int) - 131071 }

def LUA_OPCODES : List String :=
  ["MOVE",
   "LOADK", "LOADBOOL", "LOADNIL",
   "GETUPVAL", "GETGLOBAL", "GETTABLE",
   "SETGLOBAL", "SETUPVAL", "SETTABLE", "NEWTABLE",
   "SELF",
   "ADD", "SUB", "MUL", "DIV", "MOD", "POW",
   "UNM", "NOT", "LEN",
   "CONCAT",
   "JMP",
   "EQ", "LT", "LE",
   "TEST", "TESTSET",
   "CALL", "TAILCALL", "RETURN",
   "FORLOOP", "FORPREP", "TFORLOOP",
   "SETLIST",
   "CLOSE",
   "CLOSURE",
   "VARARG"]

def Inst.name (i : Inst) : Option String := LUA_OPCODES.get? i.opcode

/-- Encoding helper for concrete test programs (the inverse of decodeInst on
in-range fields). -/
def mkInst (op a b c : Nat) : Nat := op + a * 64 + c * 16384 + b * 8388608

def floatingByteToInt (x : Nat) : Nat :=
  if x < 8 then x else ((x &&& 7) + 8) <<< ((x >>> 3) - 1)

def rkGet (regs : List LV) (consts : List LV) (x : Nat) : LV :=
  if x &&& 256 ≠ 0 then (consts.get? (x &&& 255)).getD .undef
  else (regs.get? x).getD .undef

def jsToSliceIdx (len : Nat) (n : JSNum) : Nat :=
  match n with
  | .nan => 0
  | .inf => len
  | .neginf => 0
  | .fin q =>
      let i := qTrunc q
      if i < 0 then (len + i).toNat else min i.toNat len

/-- Array.prototype.slice with JavaScript number bounds. -/
def jsSliceLV (l : List LV) (s e : JSNum) : List LV :=
  let a := jsToSliceIdx l.length s
  let b := jsToSliceIdx l.length e
  (l.take b).drop a

/-- Iteration count of a source loop bounded by a JavaScript number (the
bound is an integer or NaN in every reachable state; an infinite bound
would not terminate in the source and is mapped to 0). -/
def jsIterCount : JSNum → Nat
  | .fin q => (qFloor q).toNat
  | _ => 0

/-! ## Helpers for the interpreter -/

def liftE {α : Type} : Except Exc α → M α
  | .ok a => pure a
  | .error x => throw x

inductive AOp where
  | add
  | sub
  | mul
  | div
  | mod
  | pow
deriving DecidableEq, Repr

def AOp.metaName : AOp → String
  | .add => "__add"
  | .sub => "__sub"
  | .mul => "__mul"
  | .div => "__div"
  | .mod => "__mod"
  | .pow => "__pow"

/-- The native numeric computation of each LVNumber arithmetic method
(division checks `otherVal === 0` first and answers Infinity). -/
def numNative (op : AOp) (x y : JSNum) : JSNum :=
  match op with
  | .add => jsAdd x y
  | .sub => jsSub x y
  | .mul => jsMul x y
  | .div => if jsEqb y (jsNat 0) then .inf else jsDiv x y
  | .mod => jsMod x y
  | .pow => jsPow x y

def arithErrP (pos : Pos) (t : String) : Exc :=
  .luaErr pos ("attempt to perform arithmetic on a " ++ t ++ " value")

/-- An LVNumber arithmetic method (add/sub/mul/div/mod/pow) as a whole: the
native closure coerces the right operand through asNumber and rejects NaN;
when it yields no result, the overrideable wrapper consults the number
metatable - always null in this implementation - and lands in notFound,
which reports the type of the RIGHT operand (src/index.js:202-203). -/
def lvNumArith (pos : Pos) (op : AOp) (x : JSNum) (b : LV) : Except Exc LV :=
  match asNumberE b with
  | .error e => .error e
  | .ok (.num y) =>
      if y.isNaN then .error (arithErrP pos (typeName b))
      else .ok (.num (numNative op x y))
  | .ok _ => .error (arithErrP pos (typeName b))

/-- LVBase.unm on a non-number evaluates the undeclared identifier `other`
as an argument (src/index.js:162), so it always throws a ReferenceError;
LVNumber.unm negates. -/
def lvUnm : LV → Except Exc LV
  | .num x => .ok (.num (jsNeg x))
  | .undef => .error (.jsErr "TypeError")
  | .tup _ => .error (.jsErr "TypeError")
  | _ => .error (.jsErr "ReferenceError")

def lvNot (v : LV) : Except Exc LV := do
  pure (.boolean (!(← truthyE v)))

/-- The byte-comparison loop shared by LVString.lt and LVString.le: first
differing byte decides, otherwise the shorter is smaller. -/
def bytesLt : List Nat → List Nat → Bool
  | [], [] => false
  | [], _ :: _ => true
  | _ :: _, [] => false
  | a :: as, b :: bs => if a < b then true else if b < a then false else bytesLt as bs

/-- JavaScript truthiness of `unwrap(v)` (used as the condition value in
compHandler): unwrapped strings are their decoded text, wrapped numbers
their raw number, tables and closures give undefined. -/
def jsUnwrapTruthy : LV → Bool
  | .boolean b => b
  | .num x => !(jsEqb x (jsNat 0)) && !x.isNaN
  | .str _ b => !b.isEmpty
  | .nil => false
  | .tup _ => true
  | .hostfn _ => true
  | .table _ => false
  | .closure _ => false
  | .coro _ => false
  | .undef => false

/-- JavaScript `===` between two VM values viewed as objects: identity of
tables, closures and coroutines is heap-id equality, of host functions tag
equality (each is registered once), of strings backing-array identity (in
its one consumer, compHandler, this yields the same outcome as wrapper
identity because the `.eq` fallback compares the same references).
Wrapped primitives are distinct objects there, and their `.eq` fallback
supplies the value comparison. -/
def jsIdentity : LV → LV → Bool
  | .table a, .table b => a == b
  | .closure a, .closure b => a == b
  | .coro a, .coro b => a == b
  | .hostfn f, .hostfn g => f == g
  | .str r _, .str r' _ => r == r'
  | _, _ => false

def jsIdentityOpt : Option LV → Option LV → Bool
  | none, none => true
  | some a, some b => jsIdentity a b
  | _, _ => false

def compareErr (pos : Pos) (ta tb : String) : Exc :=
  if ta = tb then .luaErr pos ("attempt to compare two " ++ ta ++ " values")
  else .luaErr pos ("attempt to compare " ++ ta ++ " with " ++ tb)

def concatErr (pos : Pos) (t : String) : Exc :=
  .luaErr pos ("attempt to concatenate a " ++ t ++ " value")

/-- The type text of errors.call: `value?.type ?? typeof value`. -/
def callTypeText : LV → String
  | .undef => "undefined"
  | .tup _ => "object"
  | v => typeName v

def callErr (pos : Pos) (v : LV) : Exc :=
  .luaErr pos ("attempt to call a " ++ callTypeText v ++ " value")

/-- The second constructor argument of `new LVCoroutine(closure, args)`:
missing (undefined), a single spread-through value, or an actual array. -/
inductive CtorArgs where
  | undefined
  | single (v : LV)
  | arrv (l : List LV)

/-- One step of the constructor's parameter loop: the value of `args[i] ??
new LVNil()` where `args` is the raw constructor parameter.  Indexing a
missing parameter throws; indexing a non-array object gives undefined,
recovered to nil. -/
def ctorParamVal (aparam : CtorArgs) (i : Nat) : M LV :=
  match aparam with
  | .undefined => throw (.jsErr "TypeError")
  | .single _ => pure .nil
  | .arrv l =>
      pure (match l.get? i with
            | some .undef => .nil
            | some v => v
            | none => .nil)

def ctorFillFrom (aparam : CtorArgs) : Nat → Nat → List LV → M (List LV)
  | _, 0, regs => pure regs
  | i, c + 1, regs => do
      let v ← ctorParamVal aparam i
      ctorFillFrom aparam (i + 1) c (setIdx regs i v)

/-- The LVCoroutine constructor (src/index.js:638-656): reads
`closure.proto` (throwing on a host function), sizes a nil-initialised
register file, stores `args ?? []`, and copies the first paramCount entries
of the raw `args` parameter. -/
def mkCoroutineM (closV : LV) (aparam : CtorArgs) : M LV := do
  match closV with
  | .closure cid =>
      let cd ← getClosM cid
      let pr := cd.proto.core
      let args : CoArgs :=
        match aparam with
        | .undefined => .arr []
        | .single v => .obj v
        | .arrv l => .arr l
      let regs0 := List.replicate pr.maxStackSize LV.nil
      let regs ← ctorFillFrom aparam 0 pr.paramCount regs0
      let id ← allocRef
      setCoroM id { closure := cid, status := .suspended, args := args, pc := 0,
                    top := jsNat 0, regs := regs, openUps := [] }
      pure (.coro id)
  | _ => throw (.jsErr "TypeError")

def coArgsLen : CoArgs → JSNum
  | .arr l => jsNat l.length
  | .obj _ => .nan

def coArgsGet : CoArgs → Nat → LV
  | .arr l, i => (l.get? i).getD .undef
  | .obj _, _ => (.undef : LV)

/-- LVUpValue.close through the heap: an open cell captures the aliased
register of its owner coroutine. -/
def closeUVCell (uvid : Nat) : M Unit := do
  let uv ← getUVM uvid
  if uv.isOpen then
    match uv.owner with
    | some oid => do
        let oc ← getCoroM oid
        setUVM uvid (uvClose uv oc.regs)
    | none => setUVM uvid (uvClose uv [])
  else pure ()

def closeAllUps : List Nat → M Unit
  | [] => pure ()
  | u :: r => do
      closeUVCell u
      closeAllUps r

/-- The close loops of CLOSE and JMP: `upValue.isOpen && upValue.index >= A`
(a null index coerces to 0 in the comparison). -/
def closeGeUps (a : Nat) : List Nat → M Unit
  | [] => pure ()
  | u :: r => do
      let uv ← getUVM u
      if uv.isOpen && decide (a ≤ uv.index.getD 0) then closeUVCell u else pure ()
      closeGeUps a r

/-- The executor's setReg: write the register and raise the top watermark
when `i >= coroutine.top` (false when the top is NaN). -/
def setRegM (cid i : Nat) (v : LV) : M Unit := do
  let co ← getCoroM cid
  let top := if jsLeb co.top (jsNat i) then jsNat (i + 1) else co.top
  setCoroM cid { co with regs := setIdx co.regs i v, top := top }

def setPcM (cid : Nat) (p : Int) : M Unit := do
  let co ← getCoroM cid
  setCoroM cid { co with pc := p }

def addPcM (cid : Nat) (d : Int) : M Unit := do
  let co ← getCoroM cid
  setCoroM cid { co with pc := co.pc + d }

def setTopM (cid : Nat) (t : JSNum) : M Unit := do
  let co ← getCoroM cid
  setCoroM cid { co with top := t }

def setRegsFrom (cid : Nat) : Nat → List LV → M Unit
  | _, [] => pure ()
  | a, v :: r => do
      setRegM cid a v
      setRegsFrom cid (a + 1) r

/-- Write `values[i] ?? new LVNil()` into registers a + i for i below the
count (missing and undefined entries become nil). -/
def setRegsPad (cid a : Nat) (vs : List LV) : Nat → Nat → M Unit
  | _, 0 => pure ()
  | i, c + 1 => do
      setRegM cid (a + i)
        (match vs.get? i with
         | some .undef => .nil
         | some v => v
         | none => .nil)
      setRegsPad cid a vs (i + 1) c

def setNilRange (cid : Nat) : Nat → Nat → M Unit
  | _, 0 => pure ()
  | a, c + 1 => do
      setRegM cid a .nil
      setNilRange cid (a + 1) c

def setListLoop (tid : Nat) (offset : JSNum) (regs : List LV) (a : Nat) : Nat → Nat → M Unit
  | _, 0 => pure ()
  | i, c + 1 => do
      let t ← getTableM tid
      setTableM tid (rawSetD t (.num (jsAdd offset (jsNat i))) ((regs.get? (a + i)).getD .undef))
      setListLoop tid offset regs a (i + 1) c

def varargCopy (cid a pcount : Nat) (args : CoArgs) : Nat → Nat → M Unit
  | _, 0 => pure ()
  | i, c + 1 => do
      setRegM cid (a + i) (coArgsGet args (pcount + i))
      varargCopy cid a pcount args (i + 1) c

/-! ## The interpreter

One fuelled function carries the mutually recursive knot of the source:
runCoroutine (the frame loop), `call`, the registered host functions, and
the metamethod-dispatching value operations (which can re-enter `call`).
Fuel is consumed at every recursive entry; `noFuel` never occurs for the
concrete programs below. -/

structure VM where
  isLittleEndian : Bool
  intSize : Nat
  sizeTSize : Nat
  instSize : Nat
  luaNumSize : Nat
  luaNumIsInt : Nat
  globals : Nat
  mainProto : Proto

def aopOf : Option String → Option AOp
  | some "ADD" => some .add
  | some "SUB" => some .sub
  | some "MUL" => some .mul
  | some "DIV" => some .div
  | some "MOD" => some .mod
  | some "POW" => some .pow
  | _ => none

inductive CmpK where
  | ceq
  | clt
  | cle
deriving DecidableEq, Repr

def cmpOf : Option String → Option CmpK
  | some "EQ" => some .ceq
  | some "LT" => some .clt
  | some "LE" => some .cle
  | _ => none

/-- Requests of the interpreter knot: run a coroutine frame, call a value,
run a host function, or perform a metamethod-dispatching value operation
(the CONCAT fold gets its own request because the operand registers are
re-read after each step, which may have run a metamethod). -/
inductive Req where
  | rCoro (id : Nat)
  | rCall (pos : Pos) (v : LV) (args : List LV)
  | rHost (pos : Pos) (f : HostFn) (args : List LV)
  | rArith (pos : Pos) (op : AOp) (a b : LV)
  | rConcat (pos : Pos) (a b : LV)
  | rConcatStep (pos : Pos) (cid : Nat) (acc : LV) (i cnt : Nat)
  | rEq (pos : Pos) (a b : LV)
  | rLt (pos : Pos) (a b : LV)
  | rLe (pos : Pos) (a b : LV)
  | rLen (pos : Pos) (v : LV)

def exec (vm : VM) : Nat → Req → M LV
  | 0, _ => throw .noFuel
  | fuel + 1, req =>
    match req with
    | .rArith pos op a b =>
      -- LVNumber.add/sub/mul/div/mod/pow for a number on the left (their
      -- notFound reports the type of the right operand; numbers carry no
      -- metatable, so the metamethod consultation of overrideable finds
      -- nothing); LVBase's version for every other LVBase value.
      (match a with
       | .num x => liftE (lvNumArith pos op x b)
       | .undef => throw (.jsErr "TypeError")
       | .tup _ => throw (.jsErr "TypeError")
       | _ => do
           let m ← getMetaM a op.metaName
           match m with
           | some mv => do
               let t ← liftE (truthyE mv)
               if t then exec vm fuel (.rCall pos mv [a, b])
               else throw (arithErrP pos (typeName a))
           | none => throw (arithErrP pos (typeName a)))
    | .rConcat pos a b =>
      -- LVNumber.concat and LVString.concat succeed natively only when the
      -- right operand is a number (only then is the coerced otherVal a
      -- string: a string operand contributes its Uint8Array).  The string
      -- left operand concatenates `this.value + otherVal`, coercing the
      -- Uint8Array through its comma-joined rendering.
      (match a with
       | .num x =>
           (match b with
            | .undef => throw (.jsErr "TypeError")
            | .num y => newLVString (jsNumToString x ++ jsNumToString y)
            | _ => throw (concatErr pos (typeName b)))
       | .str _ sb =>
           (match b with
            | .undef => throw (.jsErr "TypeError")
            | .num y => newLVString (commaJoinBytes sb ++ jsNumToString y)
            | _ => throw (concatErr pos (typeName b)))
       | .undef => throw (.jsErr "TypeError")
       | .tup _ => throw (.jsErr "TypeError")
       | _ => do
           let m ← getMetaM a "__concat"
           let usedLeft ← (match m with
             | some mv => liftE (truthyE mv)
             | none => pure false)
           if usedLeft then
             exec vm fuel (.rCall pos (m.getD .undef) [a, b])
           else do
             let m2 ← getMetaM b "__concat"
             match m2 with
             | some mv => do
                 let t ← liftE (truthyE mv)
                 if t then exec vm fuel (.rCall pos mv [a, b])
                 else throw (concatErr pos (typeName a))
             | none => throw (concatErr pos (typeName a)))
    | .rConcatStep pos cid acc i cnt =>
      (match cnt with
       | 0 => pure acc
       | c + 1 => do
           let co ← getCoroM cid
           let cd ← getClosM co.closure
           let nxt := firstVal (rkGet co.regs cd.proto.core.constants i)
           let acc2 ← exec vm fuel (.rConcat pos acc nxt)
           exec vm fuel (.rConcatStep pos cid acc2 (i + 1) c))
    | .rEq pos a b =>
      -- LVNumber/LVString/LVBoolean/LVNil override eq with a value (or
      -- backing-array reference) comparison; LVBase.eq adds the identity
      -- check and the __eq metamethod.
      (match a with
       | .undef => throw (.jsErr "TypeError")
       | .tup _ => throw (.jsErr "TypeError")
       | .num x => do
           let _ ← liftE (jsTypeField b)
           pure (.boolean (match b with | .num y => jsEqb x y | _ => false))
       | .str r _ => do
           let _ ← liftE (jsTypeField b)
           pure (.boolean (match b with | .str r2 _ => r == r2 | _ => false))
       | .boolean v => do
           let _ ← liftE (jsTypeField b)
           pure (.boolean (match b with | .boolean v2 => v == v2 | _ => false))
       | .nil => do
           let tb ← liftE (jsTypeField b)
           pure (.boolean (tb = "nil"))
       | _ => do
           let tb ← liftE (jsTypeField b)
           if typeName a ≠ tb then pure (.boolean false)
           else if jsIdentity a b then pure (.boolean true)
           else do
             let m ← getMetaM a "__eq"
             match m with
             | some mv => do
                 let t ← liftE (truthyE mv)
                 if t then exec vm fuel (.rCall pos mv [a, b])
                 else pure (.boolean false)
             | none => pure (.boolean false))
    | .rLt pos a b =>
      (match a with
       | .num x => do
           let tb ← liftE (jsTypeField b)
           if tb = "number" then
             pure (.boolean (match b with | .num y => jsLtb x y | _ => false))
           else throw (compareErr pos "number" tb)
       | .str _ sb => do
           let tb ← liftE (jsTypeField b)
           (match b with
            | .str _ ob => pure (.boolean (bytesLt sb ob))
            | _ => throw (compareErr pos "string" tb))
       | .undef => throw (.jsErr "TypeError")
       | .tup _ => throw (.jsErr "TypeError")
       | _ => do
           -- LVBase.lt through compHandler
           let tb ← liftE (jsTypeField b)
           if typeName a ≠ tb then throw (compareErr pos (typeName a) tb)
           else do
             let m1 ← getMetaM a "__lt"
             let m2 ← getMetaM b "__lt"
             let cond ← (if jsIdentityOpt m1 m2 then pure true
               else match m1 with
               | none => throw (.jsErr "TypeError")
               | some mv => do
                   let r ← exec vm fuel (.rEq pos mv (m2.getD .undef))
                   pure (jsUnwrapTruthy r))
             match (if cond then m1 else none) with
             | some mv => do
                 let t ← liftE (truthyE mv)
                 if t then exec vm fuel (.rCall pos mv [a, b])
                 else throw (compareErr pos (typeName a) tb)
             | none => throw (compareErr pos (typeName a) tb))
    | .rLe pos a b =>
      (match a with
       | .num x => do
           let tb ← liftE (jsTypeField b)
           if tb = "number" then
             pure (.boolean (match b with | .num y => jsLeb x y | _ => false))
           else throw (compareErr pos "number" tb)
       | .str r sb => do
           -- the reference-equality shortcut answers true; otherwise the
           -- same byte loop as lt (so equal-content distinct strings
           -- answer false)
           (match b with
            | .str r2 ob =>
                if r == r2 then pure (.boolean true)
                else pure (.boolean (bytesLt sb ob))
            | _ => do
                let tb ← liftE (jsTypeField b)
                throw (compareErr pos "string" tb))
       | .undef => throw (.jsErr "TypeError")
       | .tup _ => throw (.jsErr "TypeError")
       | _ => do
           let tb ← liftE (jsTypeField b)
           if typeName a ≠ tb then throw (compareErr pos (typeName a) tb)
           else do
             let m1 ← getMetaM a "__le"
             let m2 ← getMetaM b "__le"
             let cond ← (if jsIdentityOpt m1 m2 then pure true
               else match m1 with
               | none => throw (.jsErr "TypeError")
               | some mv => do
                   let r ← exec vm fuel (.rEq pos mv (m2.getD .undef))
                   pure (jsUnwrapTruthy r))
             match (if cond then m1 else none) with
             | some mv => do
                 let t ← liftE (truthyE mv)
                 if t then exec vm fuel (.rCall pos mv [a, b])
                 else throw (compareErr pos (typeName a) tb)
             | none => do
                 let n1 ← getMetaM a "__lt"
                 let n2 ← getMetaM b "__lt"
                 let cond2 ← (if jsIdentityOpt n1 n2 then pure true
                   else match n1 with
                   | none => throw (.jsErr "TypeError")
                   | some mv => do
                       let r ← exec vm fuel (.rEq pos mv (n2.getD .undef))
                       pure (jsUnwrapTruthy r))
                 match (if cond2 then n1 else none) with
                 | some mv => do
                     let t ← liftE (truthyE mv)
                     if t then do
                       let r ← exec vm fuel (.rCall pos mv [b, a])
                       liftE (lvNot r)
                     else throw (compareErr pos (typeName a) tb)
                 | none => throw (compareErr pos (typeName a) tb))
    | .rLen pos v =>
      (match v with
       | .str _ b => pure (.num (jsNat b.length))
       | .table id => do
           let t ← getTableM id
           pure (.num (jsNat (tblLen t)))
       | .undef => throw (.jsErr "TypeError")
       | .tup _ => throw (.jsErr "TypeError")
       | _ => do
           let m ← getMetaM v "__len"
           match m with
           | some mv => do
               let t ← liftE (truthyE mv)
               if t then exec vm fuel (.rCall pos mv [v])
               else throw (.luaErr pos ("attempt to get length of a " ++ typeName v ++ " value"))
           | none => throw (.luaErr pos ("attempt to get length of a " ++ typeName v ++ " value")))
    | .rCall pos v args =>
      (match v with
       | .hostfn f => exec vm fuel (.rHost pos f args)
       | .closure _ => do
           -- `new LVCoroutine(value, ...args)` spreads the argument list
           -- into the two-parameter constructor: its `args` parameter
           -- receives the first argument only
           let aparam : CtorArgs :=
             match args.head? with
             | none => .undefined
             | some .undef => .undefined
             | some a => .single a
           let cv ← mkCoroutineM v aparam
           (match cv with
            | .coro nid => exec vm fuel (.rCoro nid)
            | _ => throw (.jsErr "TypeError"))
       | .coro id => exec vm fuel (.rCoro id)
       | .undef => throw (callErr pos v)
       | .tup _ => throw (callErr pos v)
       | _ => do
           let m ← getMetaM v "__call"
           match m with
           | some mv => do
               let t ← liftE (truthyE mv)
               if t then exec vm fuel (.rCall pos mv (v :: args))
               else throw (callErr pos v)
           | none => throw (callErr pos v))
    | .rHost pos f args =>
      (match f with
       | .coroutine_yield => throw (.luaYield args)
       | .coroutine_create => do
           let func := (args.head?).getD .undef
           let tf ← liftE (jsTypeField func)
           if tf ≠ "function" then
             throw (.luaErr pos ("bad argument #1 to \x27create\x27 (function expected, got " ++ tf ++ ")"))
           else mkCoroutineM func (.arrv [])
       | .coroutine_resume => do
           let cov := (args.head?).getD .undef
           match cov with
           | .coro id => do
               let cd ← getCoroM id
               if cd.status = .dead then do
                 let s ← newLVString (asciiBytes "cannot resume dead coroutine")
                 pure (.tup [.boolean false, s])
               else do
                 setCoroM id { cd with status := .running }
                 -- the source spreads the remaining arguments into
                 -- runCoroutine, whose parameter list has only the
                 -- coroutine: they are discarded
                 let result ← exec vm fuel (.rCoro id)
                 let cd2 ← getCoroM id
                 if cd2.status = .suspended then
                   match result with
                   | .tup vs => pure (.tup (.boolean true :: vs))
                   | _ => throw (.jsErr "TypeError")
                 else do
                   setCoroM id { cd2 with status := .dead }
                   pure (.tup (.boolean true :: normalize result))
           | _ => throw (.jsErr "ReferenceError"))
    | .rCoro id =>
      tryCatch
        (do
          let co ← getCoroM id
          let cd ← getClosM co.closure
          let pr := cd.proto.core
          if co.pc < 0 ∨ (pr.insts.length : Int) ≤ co.pc then pure .undef
          else do
            let w := (pr.insts.get? co.pc.toNat).getD 0
            let inst := decodeInst w
            let iA := inst.A
            let iB := inst.B
            let iC := inst.C
            let iBx := inst.Bx
            let newPc := co.pc + 1
            setPcM id newPc
            let pos : Pos := { fileName := pr.fileName, line := pr.lineInfo.get? newPc.toNat }
            let done ←
              (if let some op := aopOf inst.name then do
                let co1 ← getCoroM id
                let left := firstVal (rkGet co1.regs pr.constants iB)
                let right := firstVal (rkGet co1.regs pr.constants iC)
                let result ← exec vm fuel (.rArith pos op left right)
                setRegM id iA result
                pure none
              else if let some ck := cmpOf inst.name then do
                let co1 ← getCoroM id
                let left := firstVal (rkGet co1.regs pr.constants iB)
                let right := firstVal (rkGet co1.regs pr.constants iC)
                let result ← exec vm fuel
                  (match ck with
                   | .ceq => .rEq pos left right
                   | .clt => .rLt pos left right
                   | .cle => .rLe pos left right)
                let bres ← liftE (truthyE result)
                if bres ≠ (iA ≠ 0) then addPcM id 1 else pure ()
                pure none
              else
                match inst.name with
                | some "MOVE" => do
                    let co1 ← getCoroM id
                    setRegM id iA ((co1.regs.get? iB).getD .undef)
                    pure none
                | some "LOADK" => do
                    setRegM id iA ((pr.constants.get? iBx).getD .undef)
                    pure none
                | some "LOADBOOL" => do
                    setRegM id iA (.boolean (iB ≠ 0))
                    -- the skip branch increments the undeclared pc (src 1622)
                    if iC ≠ 0 then throw (.jsErr "ReferenceError") else pure none
                | some "LOADNIL" => do
                    setNilRange id iA (iB + 1 - iA)
                    pure none
                | some "GETGLOBAL" => do
                    let key := (pr.constants.get? iBx).getD .undef
                    let g ← getTableM vm.globals
                    setRegM id iA (rawGetD g (unwrapLV key))
                    pure none
                | some "SETGLOBAL" => do
                    let key := (pr.constants.get? iBx).getD .undef
                    let co1 ← getCoroM id
                    let g ← getTableM vm.globals
                    setTableM vm.globals (rawSetD g (unwrapLV key) ((co1.regs.get? iA).getD .undef))
                    pure none
                | some "NEWTABLE" => do
                    -- the array-length pre-reservation (floatingByteToInt B)
                    -- creates no elements and is unobservable
                    let tid ← allocTable emptyTable
                    setRegM id iA (.table tid)
                    pure none
                | some "GETTABLE" => do
                    let co1 ← getCoroM id
                    let key := rkGet co1.regs pr.constants iC
                    (match (co1.regs.get? iB).getD .undef with
                     | .table tid => do
                         let t ← getTableM tid
                         setRegM id iA (rawGetD t (unwrapLV key))
                         pure none
                     | _ => throw (.jsErr "TypeError"))
                | some "SETTABLE" => do
                    let co1 ← getCoroM id
                    let key := rkGet co1.regs pr.constants iB
                    let val := rkGet co1.regs pr.constants iC
                    (match (co1.regs.get? iA).getD .undef with
                     | .table tid => do
                         let t ← getTableM tid
                         setTableM tid (rawSetD t (unwrapLV key) val)
                         pure none
                     | _ => throw (.jsErr "TypeError"))
                | some "SELF" => do
                    let co1 ← getCoroM id
                    let tableV := (co1.regs.get? iB).getD .undef
                    let key := rkGet co1.regs pr.constants iC
                    setRegM id (iA + 1) tableV
                    (match tableV with
                     | .table tid => do
                         let t ← getTableM tid
                         setRegM id iA (rawGetD t (unwrapLV key))
                         pure none
                     | _ => throw (.jsErr "TypeError"))
                | some "SETLIST" => do
                    let co1 ← getCoroM id
                    let extra ←
                      (if iC = 0 then do
                        let w2 := pr.insts.get? co1.pc.toNat
                        setPcM id (co1.pc + 1)
                        pure (match w2 with | some n => jsNat n | none => JSNum.nan)
                      else pure (jsNat iC))
                    let co2 ← getCoroM id
                    let count : JSNum :=
                      if iB = 0 then jsSub co2.top (jsNat (iA + 1)) else jsNat iB
                    let cnt := jsIterCount count
                    if cnt = 0 then pure none
                    else
                      (match (co2.regs.get? iA).getD .undef with
                       | .table tid => do
                           let offset := jsMul (jsSub extra (jsNat 1)) (jsNat 50)
                           setListLoop tid offset co2.regs iA 1 cnt
                           pure none
                       | _ => throw (.jsErr "TypeError"))
                | some "CLOSURE" => do
                    (match cd.proto.nestedProtos.get? iBx with
                     | none => throw (.jsErr "TypeError")
                     | some np =>
                         if np.core.upValueCount ≠ 0 then
                           -- the up-value binding loop reads the
                           -- undeclared pc (src 1717)
                           throw (.jsErr "ReferenceError")
                         else do
                           let clid ← allocRef
                           setClosM clid { proto := np, upvals := [] }
                           setRegM id iA (.closure clid)
                           pure none)
                | some "GETUPVAL" => do
                    let co1 ← getCoroM id
                    let cd1 ← getClosM co1.closure
                    (match cd1.upvals.get? iB with
                     | some (some uvid) => do
                         let uv ← getUVM uvid
                         let regs ←
                           (match uv.owner with
                            | some oid => do
                                let oc ← getCoroM oid
                                pure oc.regs
                            | none => pure [])
                         setRegM id iA (uvGet uv regs)
                         pure none
                     | _ => throw (.jsErr "TypeError"))
                | some "SETUPVAL" => do
                    let co1 ← getCoroM id
                    let cd1 ← getClosM co1.closure
                    (match cd1.upvals.get? iB with
                     -- the argument `regs[A]` reads the undeclared regs
                     -- (src 1745); a missing cell fails earlier on `.set`
                     | some (some _) => throw (.jsErr "ReferenceError")
                     | _ => throw (.jsErr "TypeError"))
                | some "CLOSE" => do
                    let co1 ← getCoroM id
                    closeGeUps iA co1.openUps
                    pure none
                | some "CALL" => do
                    let co1 ← getCoroM id
                    let callee := (co1.regs.get? iA).getD .undef
                    let argCount : JSNum :=
                      if iB = 0 then jsSub co1.top (jsNat (iA + 1)) else jsNat (iB - 1)
                    let args := jsSliceLV co1.regs (jsNat (iA + 1)) (jsAdd (jsNat (iA + 1)) argCount)
                    let result ← exec vm fuel (.rCall pos callee args)
                    let values := normalize result
                    if iC = 0 then do
                      setRegsFrom id iA values
                      setTopM id (jsNat (iA + values.length))
                      pure none
                    else if iC = 1 then pure none
                    else do
                      let rc := iC - 1
                      setRegsPad id iA values 0 rc
                      setTopM id (jsNat (iA + rc))
                      pure none
                | some "RETURN" => do
                    let co1 ← getCoroM id
                    closeAllUps co1.openUps
                    let co2 ← getCoroM id
                    if iB = 0 then pure (some (.tup (jsSliceLV co2.regs (jsNat iA) co2.top)))
                    else if iB = 1 then pure (some (.tup []))
                    else if iB = 2 then pure (some ((co2.regs.get? iA).getD .undef))
                    else
                      -- `regs.slice` reads the undeclared regs (src 1816)
                      throw (.jsErr "ReferenceError")
                | some "TAILCALL" => do
                    let co1 ← getCoroM id
                    let callee := (co1.regs.get? iA).getD .undef
                    let argCount : JSNum :=
                      if iB = 0 then jsSub co1.top (jsNat (iA + 1)) else jsNat (iB - 1)
                    let args := jsSliceLV co1.regs (jsNat (iA + 1)) (jsAdd (jsNat (iA + 1)) argCount)
                    closeAllUps co1.openUps
                    let result ← exec vm fuel (.rCall pos callee args)
                    let values := normalize result
                    if iC = 0 then pure (some (.tup values))
                    else if iC = 1 then pure (some (.tup []))
                    else if iC = 2 then
                      pure (some (match values.get? 0 with
                                  | some .undef => .nil
                                  | some v => v
                                  | none => .nil))
                    else
                      pure (some (.tup ((values.take (iC - 1)).map
                        (fun v => match v with | .undef => .nil | v2 => v2))))
                | some "CONCAT" => do
                    let co1 ← getCoroM id
                    let racc := firstVal (rkGet co1.regs pr.constants iB)
                    let result ← exec vm fuel (.rConcatStep pos id racc (iB + 1) (iC - iB))
                    setRegM id iA result
                    pure none
                | some "JMP" => do
                    let co1 ← getCoroM id
                    closeGeUps iA co1.openUps
                    addPcM id inst.sBx
                    pure none
                | some "TEST" => do
                    let co1 ← getCoroM id
                    let val := (co1.regs.get? iB).getD .undef
                    let cond ← liftE (truthyE val)
                    if cond ≠ (iC ≠ 0) then addPcM id 1 else pure ()
                    pure none
                | some "TESTSET" => do
                    let co1 ← getCoroM id
                    let val := (co1.regs.get? iB).getD .undef
                    let cond ← liftE (truthyE val)
                    if cond ≠ (iC ≠ 0) then addPcM id 1
                    else setRegM id iA val
                    pure none
                | some "UNM" => do
                    let co1 ← getCoroM id
                    let r ← liftE (lvUnm (rkGet co1.regs pr.constants iB))
                    setRegM id iA r
                    pure none
                | some "NOT" => do
                    let co1 ← getCoroM id
                    let r ← liftE (lvNot (rkGet co1.regs pr.constants iB))
                    setRegM id iA r
                    pure none
                | some "LEN" => do
                    let co1 ← getCoroM id
                    let r ← exec vm fuel (.rLen pos (rkGet co1.regs pr.constants iB))
                    setRegM id iA r
                    pure none
                | some "FORPREP" => do
                    let co1 ← getCoroM id
                    let counter := (co1.regs.get? iA).getD .undef
                    let limit := (co1.regs.get? (iA + 1)).getD .undef
                    let step := (co1.regs.get? (iA + 2)).getD .undef
                    let tc ← liftE (jsTypeField counter)
                    if tc ≠ "number" then
                      throw (.luaErr pos "\x27for\x27 initial value must be a number")
                    else do
                    let tl ← liftE (jsTypeField limit)
                    if tl ≠ "number" then
                      throw (.luaErr pos "\x27for\x27 limit must be a number")
                    else do
                    let ts ← liftE (jsTypeField step)
                    if ts ≠ "number" then
                      throw (.luaErr pos "\x27for\x27 step must be a number")
                    else do
                    let r ← exec vm fuel (.rArith pos .sub counter step)
                    setRegM id iA r
                    addPcM id inst.sBx
                    pure none
                | some "FORLOOP" => do
                    let co1 ← getCoroM id
                    let counter := (co1.regs.get? iA).getD .undef
                    let limit := (co1.regs.get? (iA + 1)).getD .undef
                    let step := (co1.regs.get? (iA + 2)).getD .undef
                    let newCounter ← exec vm fuel (.rArith pos .add counter step)
                    setRegM id iA newCounter
                    let r1 ← exec vm fuel (.rLe pos step (.num (jsNat 0)))
                    let t1 ← liftE (truthyE r1)
                    let continueLoop ←
                      (if t1 then do
                        let r2 ← exec vm fuel (.rLe pos limit newCounter)
                        liftE (truthyE r2)
                      else do
                        let r2 ← exec vm fuel (.rLe pos newCounter limit)
                        liftE (truthyE r2))
                    if continueLoop then do
                      let co2 ← getCoroM id
                      setRegM id (iA + 3) ((co2.regs.get? iA).getD .undef)
                      addPcM id inst.sBx
                    pure none
                | some "TFORLOOP" => do
                    let co1 ← getCoroM id
                    let iter := (co1.regs.get? iA).getD .undef
                    let st := (co1.regs.get? (iA + 1)).getD .undef
                    let ctrl := (co1.regs.get? (iA + 2)).getD .undef
                    let result ← exec vm fuel (.rCall pos iter [st, ctrl])
                    let values := normalize result
                    let newCtrl : LV :=
                      match values.get? 0 with
                      | some .undef => .nil
                      | some v => v
                      | none => .nil
                    (match newCtrl with
                     | .nil => do
                         addPcM id ((iBx : Int) - 1)
                         pure none
                     | _ => do
                         setRegM id (iA + 2) newCtrl
                         setRegsFrom id (iA + 3) values
                         pure none)
                | some "VARARG" => do
                    let co1 ← getCoroM id
                    let varArgCount := jsSub (coArgsLen co1.args) (jsNat pr.paramCount)
                    if !pr.isVarArg then do
                      -- with B = 0 the source assigns the undeclared `top`,
                      -- creating a sloppy-mode global; no frame state
                      -- changes (src 2037)
                      pure none
                    else if iB = 0 then do
                      varargCopy id iA pr.paramCount co1.args 0 (jsIterCount varArgCount)
                      setTopM id (jsAdd (jsNat iA) varArgCount)
                      pure none
                    else do
                      let nToCopy := iB - 1
                      (match varArgCount with
                       | .fin q => do
                           -- a negative count clamps to 0: the source's
                           -- padding loop then starts at a negative index,
                           -- whose only extra writes target negative
                           -- pseudo-indices, invisible to the register file
                           let copyCount := min nToCopy (qFloor q).toNat
                           varargCopy id iA pr.paramCount co1.args 0 copyCount
                           setNilRange id (iA + copyCount) (nToCopy - copyCount)
                           pure none
                       | _ => pure none)
                | _ => throw (.formatErr "invalid opcode undefined"))
            match done with
            | some v => pure v
            | none => exec vm fuel (.rCoro id))
        (fun e =>
          match e with
          | .luaYield vals => do
              let co ← getCoroM id
              setCoroM id { co with status := .suspended }
              pure (.tup vals)
          | _ => throw e)

/-! ## The binary chunk reader -/

structure Rd where
  pos : Nat
  data : List Nat
  nextRef : Nat

/-- sliceBytes: a Uint8Array copy of the range, zero for positions past the
end of the buffer (the fresh Uint8Array stays zero where the clamped
subarray supplies nothing). -/
def sliceBytes (d : List Nat) (s e : Nat) : List Nat :=
  (List.range (e - s)).map (fun i => (d.get? (s + i)).getD 0)

abbrev RM (α : Type) := ExceptT Exc (StateT Rd Id) α

def rdBytes (n : Nat) : RM (List Nat) := do
  let r ← get
  set { r with pos := r.pos + n }
  pure (sliceBytes r.data r.pos (r.pos + n))

def rdByte : RM Nat := do
  pure (((← rdBytes 1).get? 0).getD 0)

def rdAllocRef : RM Nat := do
  let r ← get
  set { r with nextRef := r.nextRef + 1 }
  pure r.nextRef

def bytesToNatLE : List Nat → Nat
  | [] => 0
  | b :: r => b + 256 * bytesToNatLE r

def bytesToNat (little : Bool) (l : List Nat) : Nat :=
  if little then bytesToNatLE l else bytesToNatLE l.reverse

def toSigned (bits v : Nat) : Int :=
  if v < 2 ^ (bits - 1) then (v : Int) else (v : Int) - 2 ^ bits

structure Hdr where
  isLittleEndian : Bool
  intSize : Nat
  sizeTSize : Nat
  instSize : Nat
  luaNumSize : Nat
  luaNumIsInt : Nat
deriving DecidableEq, Repr

def rdLuaInt (h : Hdr) : RM Int := do
  match h.intSize with
  | 1 => do pure (toSigned 8 (bytesToNat h.isLittleEndian (← rdBytes 1)))
  | 2 => do pure (toSigned 16 (bytesToNat h.isLittleEndian (← rdBytes 2)))
  | 4 => do pure (toSigned 32 (bytesToNat h.isLittleEndian (← rdBytes 4)))
  | 8 => do pure (toSigned 64 (bytesToNat h.isLittleEndian (← rdBytes 8)))
  | _ => throw (.formatErr ("unsupported lua number size: " ++ toString h.intSize))

def rdLuaUInt (h : Hdr) : RM Nat := do
  match h.intSize with
  | 1 => do pure (bytesToNat h.isLittleEndian (← rdBytes 1))
  | 2 => do pure (bytesToNat h.isLittleEndian (← rdBytes 2))
  | 4 => do pure (bytesToNat h.isLittleEndian (← rdBytes 4))
  | 8 => do pure (bytesToNat h.isLittleEndian (← rdBytes 8))
  | _ => throw (.formatErr ("unsupported lua number size: " ++ toString h.intSize))

def rdLuaSizeT (h : Hdr) : RM Nat := do
  match h.sizeTSize with
  | 1 => do pure (bytesToNat h.isLittleEndian (← rdBytes 1))
  | 2 => do pure (bytesToNat h.isLittleEndian (← rdBytes 2))
  | 4 => do pure (bytesToNat h.isLittleEndian (← rdBytes 4))
  | 8 => do pure (bytesToNat h.isLittleEndian (← rdBytes 8))
  | _ => throw (.formatErr ("unsupported lua number size: " ++ toString h.sizeTSize))

/-- Exact decoding of an IEEE-754 binary64 bit pattern. -/
def decodeF64 (bits : Nat) : JSNum :=
  let s : Nat := bits >>> 63
  let e : Nat := (bits >>> 52) &&& 2047
  let m : Nat := bits &&& (2 ^ 52 - 1)
  if e = 2047 then (if m = 0 then (if s = 1 then .neginf else .inf) else .nan)
  else
    let mag : Q :=
      if e = 0 then ⟨(m : Int), 2 ^ 1074⟩
      else if 1075 ≤ e then ⟨(((2 ^ 52 + m) * 2 ^ (e - 1075) : Nat) : Int), 1⟩
      else ⟨((2 ^ 52 + m : Nat) : Int), 2 ^ (1075 - e)⟩
    .fin (if s = 1 then qNeg mag else mag)

/-- Exact decoding of an IEEE-754 binary32 bit pattern. -/
def decodeF32 (bits : Nat) : JSNum :=
  let s : Nat := bits >>> 31
  let e : Nat := (bits >>> 23) &&& 255
  let m : Nat := bits &&& (2 ^ 23 - 1)
  if e = 255 then (if m = 0 then (if s = 1 then .neginf else .inf) else .nan)
  else
    let mag : Q :=
      if e = 0 then ⟨(m : Int), 2 ^ 149⟩
      else if 150 ≤ e then ⟨(((2 ^ 23 + m) * 2 ^ (e - 150) : Nat) : Int), 1⟩
      else ⟨((2 ^ 23 + m : Nat) : Int), 2 ^ (150 - e)⟩
    .fin (if s = 1 then qNeg mag else mag)

def rdLuaNumber (h : Hdr) : RM JSNum := do
  if h.luaNumIsInt ≠ 0 then
    match h.luaNumSize with
    | 1 => do pure (.fin (qI (toSigned 8 (bytesToNat h.isLittleEndian (← rdBytes 1)))))
    | 2 => do pure (.fin (qI (toSigned 16 (bytesToNat h.isLittleEndian (← rdBytes 2)))))
    | 4 => do pure (.fin (qI (toSigned 32 (bytesToNat h.isLittleEndian (← rdBytes 4)))))
    | 8 => do pure (.fin (qI (toSigned 64 (bytesToNat h.isLittleEndian (← rdBytes 8)))))
    | _ => throw (.formatErr ("unsupported lua number size: " ++ toString h.luaNumSize))
  else
    match h.luaNumSize with
    | 4 => do pure (decodeF32 (bytesToNat h.isLittleEndian (← rdBytes 4)))
    | 8 => do pure (decodeF64 (bytesToNat h.isLittleEndian (← rdBytes 8)))
    | _ => throw (.formatErr ("unsupported lua number size: " ++ toString h.luaNumSize))

/-- readLuaString: a zero length is the null string; otherwise length - 1
payload bytes and a trailing NUL are consumed.  String.fromCharCode turns
the bytes into UTF-16 code units one for one, so the units are the bytes. -/
def rdLuaString (h : Hdr) : RM (Option (List Nat)) := do
  let len ← rdLuaSizeT h
  if len = 0 then pure none
  else do
    let bs ← rdBytes (len - 1)
    let _ ← rdByte
    pure (some bs)

def rdInst (h : Hdr) : RM Nat := do
  match h.instSize with
  | 1 => rdByte
  | 2 => do pure (bytesToNat h.isLittleEndian (← rdBytes 2))
  | 4 => do pure (bytesToNat h.isLittleEndian (← rdBytes 4))
  | _ => throw (.formatErr ("unsupported instruction size: " ++ toString h.instSize))

def rdConstant (h : Hdr) : RM LV := do
  let t ← rdByte
  match t with
  | 0 => pure .nil
  | 1 => do pure (.boolean ((← rdByte) > 0))
  | 3 => do pure (.num (← rdLuaNumber h))
  | 4 => do
      let s ← rdLuaString h
      match s with
      | none => throw (.formatErr "invalid string literal; could not convert to bytestring")
      | some units => do
          let ref ← rdAllocRef
          pure (.str ref (encodeLatin1 units))
  | _ => throw (.formatErr ("unsupported constant type: " ++ toString t))

def rdLocal (h : Hdr) : RM (Option (List Nat) × Nat × Nat) := do
  let name ← rdLuaString h
  let sp ← rdLuaUInt h
  let ep ← rdLuaUInt h
  pure (name, sp, ep)

def rdList {α : Type} (act : RM α) : Nat → RM (List α)
  | 0 => pure []
  | n + 1 => do
      let x ← act
      let xs ← rdList act n
      pure (x :: xs)

/-- readPrototype.  The depth fuel bounds the nesting recursion: while the
read position is inside the buffer each level consumes bytes before
recursing, and past the end every count reads as zero, so a depth of
buffer length + 1 always suffices. -/
def rdProto (h : Hdr) : Nat → RM Proto
  | 0 => throw .noFuel
  | depth + 1 => do
      let fn0 ← rdLuaString h
      let fileName :=
        match fn0 with
        | none => none
        | some u => some (u.drop 1)
      let lineDefined ← rdLuaInt h
      let lastLineDefined ← rdLuaInt h
      let upValueCount ← rdByte
      let paramCount ← rdByte
      let isVarArg ← rdByte
      let maxStackSize ← rdByte
      let instCount ← rdLuaUInt h
      let insts ← rdList (rdInst h) instCount
      let constCount ← rdLuaUInt h
      let constants ← rdList (rdConstant h) constCount
      let nestedCount ← rdLuaUInt h
      let nested ← rdList (rdProto h depth) nestedCount
      let lineInfoCount ← rdLuaUInt h
      let lineInfo ← rdList (rdLuaUInt h) lineInfoCount
      let localCount ← rdLuaUInt h
      let locals ← rdList (rdLocal h) localCount
      let upNameCount ← rdLuaUInt h
      let upValueNames ← rdList (rdLuaString h) upNameCount
      pure (.mk { fileName := fileName, lineDefined := lineDefined,
                  lastLineDefined := lastLineDefined,
                  upValueCount := upValueCount, paramCount := paramCount,
                  isVarArg := isVarArg > 0, maxStackSize := maxStackSize,
                  insts := insts, constants := constants, lineInfo := lineInfo,
                  locals := locals, upValueNames := upValueNames } nested)

def LUA_SIGNATURE : List Nat := [27, 76, 117, 97]

/-- The header checks of the LuaVM constructor, in source order. -/
def rdHeader : RM Hdr := do
  let sig ← rdBytes 4
  if sig ≠ LUA_SIGNATURE then throw (.formatErr "invalid luac file, incorrect signature")
  let version ← rdByte
  if version ≠ 81 then throw (.formatErr "only lua 5.1 is supported for now")
  let format ← rdByte
  if format ≠ 0 then throw (.formatErr "invalid luac file, format non-zero")
  let endianness ← rdByte
  if endianness ≠ 0 ∧ endianness ≠ 1 then
    throw (.formatErr "invalid luac file, neither big nor small endian")
  let intSize ← rdByte
  let sizeTSize ← rdByte
  let instSize ← rdByte
  let luaNumSize ← rdByte
  let luaNumInt ← rdByte
  if luaNumInt ≠ 0 ∧ luaNumInt ≠ 1 then
    throw (.formatErr "invalid luac file, lua number neither integral nor real")
  pure { isLittleEndian := endianness = 1, intSize := intSize, sizeTSize := sizeTSize,
         instSize := instSize, luaNumSize := luaNumSize, luaNumIsInt := luaNumInt }

/-- The global environment built by the constructor.  The source also
registers math.*, string.*, print, next, select, pairs, setmetatable,
getmetatable, tonumber and tostring (src/index.js:855-1276); those host
closures are outside every claim's footprint and are not modelled - only
the coroutine library, which the claims exercise, is registered here. -/
def initGlobals : M Nat := do
  let gid ← allocTable emptyTable
  let cid ← allocTable emptyTable
  let ct0 ← getTableM cid
  let ct1 := rawSetD ct0 (.strk (asciiBytes "yield")) (.hostfn .coroutine_yield)
  let ct2 := rawSetD ct1 (.strk (asciiBytes "resume")) (.hostfn .coroutine_resume)
  let ct3 := rawSetD ct2 (.strk (asciiBytes "create")) (.hostfn .coroutine_create)
  setTableM cid ct3
  let g0 ← getTableM gid
  setTableM gid (rawSetD g0 (.strk (asciiBytes "coroutine")) (.table cid))
  pure gid

/-- The LuaVM constructor: signature, version, format, endianness and size
checks in source order, then the global environment, then the main
prototype.  Any deviation is a LuaCFormatError and no VM is produced; no
instruction can run, since execution needs the constructed VM. -/
def LuaVM.new (data : List Nat) : Except Exc (VM × Heap) := do
  let r0 : Rd := { pos := 0, data := data, nextRef := 0 }
  let (hres, r1) := (ExceptT.run rdHeader).run r0
  let h ← hres
  let (gres, σ1) := (ExceptT.run initGlobals).run emptyHeap
  let gid ← gres
  let (pres, r2) := (ExceptT.run (rdProto h (data.length + 1))).run { r1 with nextRef := σ1.nextRef }
  let proto ← pres
  pure ({ isLittleEndian := h.isLittleEndian, intSize := h.intSize, sizeTSize := h.sizeTSize,
          instSize := h.instSize, luaNumSize := h.luaNumSize, luaNumIsInt := h.luaNumIsInt,
          globals := gid, mainProto := proto },
        { σ1 with nextRef := r2.nextRef })

/-- LuaVM.run: a fresh closure over the main prototype, wrapped in a
coroutine (with no constructor arguments) and executed. -/
def LuaVM.run (vm : VM) (fuel : Nat) : M LV := do
  let clid ← allocRef
  setClosM clid { proto := vm.mainProto,
                  upvals := List.replicate vm.mainProto.core.upValueCount none }
  let cv ← mkCoroutineM (.closure clid) .undefined
  match cv with
  | .coro cid => exec vm fuel (.rCoro cid)
  | _ => throw (.jsErr "TypeError")

/-! ## Shared fixtures and helper lemmas for the claim theorems -/

def pos0 : Pos := { fileName := none, line := none }

def protoEmpty : Proto :=
  .mk { fileName := none, lineDefined := 0, lastLineDefined := 0, upValueCount := 0,
        paramCount := 0, isVarArg := false, maxStackSize := 0, insts := [], constants := [],
        lineInfo := [], locals := [], upValueNames := [] } []

def vmTest : VM :=
  { isLittleEndian := true, intSize := 4, sizeTSize := 4, instSize := 4, luaNumSize := 8,
    luaNumIsInt := 0, globals := 50, mainProto := protoEmpty }

theorem estRun_get {σ' ε : Type} (s : σ') :
    ((get : ExceptT ε (StateT σ' Id) σ')).run.run s = (.ok s, s) := rfl

theorem estRun_set {σ' ε : Type} (s s2 : σ') :
    ((set s2 : ExceptT ε (StateT σ' Id) PUnit)).run.run s = (.ok PUnit.unit, s2) := rfl

theorem isArrKey_nat (i : Nat) (h : 1 ≤ i) : isArrKey (.num (jsNat i)) = some i := by
  have h1 : qLeb (qI 1) (qI i) = true := by
    simp [qLeb, qI]
    exact_mod_cast h
  have h2 : qIsInt (qI i) = true := by
    simp [qIsInt, qI]
  have h3 : (qTrunc (qI i)).toNat = i := by
    simp only [qTrunc, qI]
    rw [if_neg (by omega : ¬ ((i : Int) < 0)),
        show ((i : Int)).ediv ((1 : Nat) : Int) = Int.ofNat (i / 1) from rfl, Nat.div_one]
    simp
  simp [isArrKey, jsNat, h1, h2, h3]

theorem assocGet_le_max (l : List (Nat × LV)) (j : Nat) (v : LV)
    (h : assocGet l j = some v) : j ≤ l.foldr (fun p m => max p.1 m) 0 := by
  induction l with
  | nil => simp [assocGet] at h
  | cons p t ih =>
      obtain ⟨k, w⟩ := p
      by_cases hp : k = j
      · subst hp
        simp [List.foldr]
      · rw [show assocGet ((k, w) :: t) j = assocGet t j from by simp [assocGet, hp]] at h
        have := ih h
        simp [List.foldr]
        omega

theorem occupied_le_max (t : TableData) (j : Nat) (h : occupied t j = true) :
    j ≤ maxArrKey t := by
  unfold occupied at h
  match he : assocGet t.arr j with
  | none => rw [he] at h; simp at h
  | some v => exact assocGet_le_max t.arr j v he

theorem lenFrom_spec (t : TableData) (k : Nat) :
    ∀ (i fuel : Nat), (∀ j, i ≤ j → j < i + k → occupied t j = true) →
      occupied t (i + k) = false → k < fuel → lenFrom t i fuel = i + k - 1 := by
  induction k with
  | zero =>
      intro i fuel h1 h2 hf
      obtain ⟨f, rfl⟩ : ∃ f, fuel = f + 1 := ⟨fuel - 1, by omega⟩
      have h2b : occupied t i = false := by simpa using h2
      simp [lenFrom, h2b]
  | succ k ih =>
      intro i fuel h1 h2 hf
      obtain ⟨f, rfl⟩ : ∃ f, fuel = f + 1 := ⟨fuel - 1, by omega⟩
      have hi : occupied t i = true := h1 i (le_refl i) (by omega)
      have step : lenFrom t i (f + 1) = lenFrom t (i + 1) f := by simp [lenFrom, hi]
      rw [step]
      have hrec := ih (i + 1) f (fun j hj1 hj2 => h1 j (by omega) (by omega))
        (by rw [show i + 1 + k = i + (k + 1) from by omega]; exact h2) (by omega)
      rw [hrec]
      omega

theorem rdHeader_sig (data : List Nat) (h : ¬ sliceBytes data 0 4 = LUA_SIGNATURE) :
    (ExceptT.run rdHeader).run { pos := 0, data := data, nextRef := 0 } =
      (.error (.formatErr "invalid luac file, incorrect signature"),
       { pos := 4, data := data, nextRef := 0 }) := by
  unfold rdHeader
  simp [rdBytes, estRun_get, estRun_set, h]

def c1proto : Proto :=
  .mk { fileName := none, lineDefined := 0, lastLineDefined := 0, upValueCount := 0,
        paramCount := 1, isVarArg := false, maxStackSize := 2, insts := [mkInst 30 0 2 0],
        constants := [], lineInfo := [], locals := [], upValueNames := [] } []

def c1heap : Heap :=
  { tables := [], upvals := [], closures := [(0, { proto := c1proto, upvals := [] })],
    coros := [], nextRef := 1 }

/-- C1: refuted by the code.  First conjunct: the outcome of
coroutine.resume is entirely independent of the arguments after the
coroutine - the source spreads them into runCoroutine, whose parameter
list has only the coroutine, so they are discarded, and the re-entered
frame never sees them.  Second conjunct (the spec's own coroutine
scenario, reduced): a coroutine created over a one-parameter closure that
returns its parameter, resumed for the first time with the argument 10,
returns (true, nil) - the initial parameter stayed nil because the create
path stores an empty argument vector and resume's arguments are dropped. -/
theorem c1_resume_arguments_are_discarded :
    (∀ (vm : VM) (fuel : Nat) (pos : Pos) (c : LV) (r r2 : List LV) (σ : Heap),
      (exec vm fuel (.rHost pos .coroutine_resume (c :: r))).run.run σ =
      (exec vm fuel (.rHost pos .coroutine_resume (c :: r2))).run.run σ) ∧
    ((do
        let cv ← exec vmTest 20 (.rHost pos0 .coroutine_create [.closure 0])
        exec vmTest 20 (.rHost pos0 .coroutine_resume [cv, .num (jsNat 10)]) : M LV).run.run
          c1heap).1 = .ok (.tup [.boolean true, .nil]) := by
  constructor
  · intro vm fuel pos c r r2 σ
    cases fuel with
    | zero => rfl
    | succ n => rfl
  · rfl

/-- C2: refuted by the code (code bug).  LVString.concat on two strings
raises "attempt to concatenate a string value": the native branch requires
the coerced right value to be a JS string, but a string operand
contributes its Uint8Array, and plain strings have no metatable, so the
overrideable wrapper lands in the error.  The byte-wise concatenation the
claim (and the spec's scenario 1) demands never happens. -/
theorem c2_concat_of_two_strings_errors :
    (exec vmTest 5 (.rConcat pos0 (.str 0 (asciiBytes "a")) (.str 1 (asciiBytes "b")))).run.run
        emptyHeap =
      (.error (.luaErr pos0 "attempt to concatenate a string value"), emptyHeap) := rfl

/-- C3: refuted by the code (code bug).  LVString.eq compares
`this.value === other.value`, reference equality of the backing
Uint8Arrays, so two distinct string objects with identical bytes compare
unequal - the byte-wise equality the claim demands does not hold. -/
theorem c3_string_eq_compares_references :
    (exec vmTest 5 (.rEq pos0 (.str 0 (asciiBytes "a")) (.str 1 (asciiBytes "a")))).run.run
        emptyHeap =
      (.ok (.boolean false), emptyHeap) := rfl

/-- C4 counterexample: with both operands numeric strings the claim fails -
LVString has no arithmetic methods, so "10" + "5" dispatches to LVBase.add,
finds no metamethod on a plain string, and raises the arithmetic error
instead of returning 15. -/
theorem c4_two_numeric_strings_error :
    (exec vmTest 5 (.rArith pos0 .add (.str 0 (asciiBytes "10")) (.str 1 (asciiBytes "5")))).run.run
        emptyHeap =
      (.error (.luaErr pos0 "attempt to perform arithmetic on a string value"), emptyHeap) := rfl

/-- C4 (amended): when the LEFT operand is a number and the right operand
coerces through asNumber to a number that is not NaN (a number, or a string
parsing as a number), the arithmetic operation returns the float result of
the corresponding native computation, with no metamethod lookup and no
error.  (The claim as stated also promised this for a numeric-string left
operand; see the counterexample.) -/
theorem c4_left_number_right_coercible_computes (pos : Pos) (op : AOp) (x y : JSNum) (b : LV)
    (hb : asNumberE b = .ok (.num y)) (hy : y.isNaN = false) :
    lvNumArith pos op x b = .ok (.num (numNative op x y)) := by
  unfold lvNumArith
  rw [hb]
  simp [hy]

theorem c4_left_number_right_coercible_computes_witness :
    asNumberE (.str 0 (asciiBytes "5")) = .ok (.num (jsNat 5)) ∧
    (jsNat 5).isNaN = false ∧
    lvNumArith pos0 .add (jsNat 2) (.str 0 (asciiBytes "5")) =
      .ok (.num (numNative .add (jsNat 2) (jsNat 5))) :=
  ⟨rfl, rfl, c4_left_number_right_coercible_computes pos0 .add (jsNat 2) (jsNat 5)
    (.str 0 (asciiBytes "5")) rfl rfl⟩

def c5t : TableData := rawSetD emptyTable (.num (jsNat 1)) .nil

/-- C5: refuted by the code (code bug, recorded in the spec's own section
9.2).  Writing nil at an absent key is not a no-op: rawSet stores the nil
and logs the key, so afterwards key 1 appears in the key-order log, its
array slot holds a nil value, and the length operator counts it. -/
theorem c5_nil_write_inserts_key :
    c5t.keyOrder = [.num (jsNat 1)] ∧
    assocGet c5t.arr 1 = some .nil ∧
    rawGetD c5t (.num (jsNat 1)) = .nil ∧
    tblLen c5t = 1 :=
  ⟨rfl, rfl, rfl, rfl⟩

def c6t : TableData :=
  rawSetD (rawSetD emptyTable (.num (jsNat 1)) (.num (jsNat 10))) (.num (jsNat 2)) .nil

/-- C6 counterexample: t = {10} followed by t[2] = nil satisfies the
claim's premises with n = 1 (t[1] is not nil, t[2] reads as nil), yet the
length is 2, because the explicitly assigned nil occupies the array slot
and the length scan counts it. -/
theorem c6_explicit_nil_slot_counts :
    rawGetD c6t (.num (jsNat 1)) ≠ .nil ∧
    rawGetD c6t (.num (jsNat 2)) = .nil ∧
    tblLen c6t = 2 :=
  ⟨fun h => LV.noConfusion h, rfl, rfl⟩

/-- C6 (amended): the length operator returns n whenever t[i] is not nil
for i in 1..n and the array slot n + 1 is UNOCCUPIED (absent or holding a
stored undefined) - an explicitly assigned nil at n + 1 occupies the slot
and is counted instead (see the counterexample). -/
theorem c6_len_at_unoccupied_boundary (t : TableData) (n : Nat)
    (h1 : ∀ i, 1 ≤ i → i ≤ n → rawGetD t (.num (jsNat i)) ≠ .nil)
    (h2 : occupied t (n + 1) = false) :
    tblLen t = n := by
  have hocc : ∀ j, 1 ≤ j → j ≤ n → occupied t j = true := by
    intro j hj1 hj2
    have hr := h1 j hj1 hj2
    have hk : isArrKey (.num (jsNat j)) = some j := isArrKey_nat j hj1
    rw [show rawGetD t (.num (jsNat j)) =
        (match assocGet t.arr j with
         | some .undef => .nil
         | some v => v
         | none => .nil) from by rw [rawGetD, hk]] at hr
    match he : assocGet t.arr j with
    | none => rw [he] at hr; simp at hr
    | some .undef => rw [he] at hr; simp at hr
    | some v => simp [occupied, he]; rw [he] at hr; cases v <;> simp_all
  have hfuel : n < maxArrKey t + 2 := by
    rcases Nat.eq_zero_or_pos n with hn | hn
    · omega
    · have := occupied_le_max t n (hocc n hn (le_refl n))
      omega
  have hlen := lenFrom_spec t n 1 (maxArrKey t + 2)
    (fun j hj1 hj2 => hocc j hj1 (by omega))
    (by rw [show 1 + n = n + 1 from by omega]; exact h2) hfuel
  unfold tblLen
  rw [hlen]
  omega

def c6wt : TableData := rawSetD emptyTable (.num (jsNat 1)) (.num (jsNat 10))

theorem c6_len_at_unoccupied_boundary_witness :
    (∀ i, 1 ≤ i → i ≤ 1 → rawGetD c6wt (.num (jsNat i)) ≠ .nil) ∧
    occupied c6wt 2 = false ∧
    tblLen c6wt = 1 := by
  have hp : ∀ i, 1 ≤ i → i ≤ 1 → rawGetD c6wt (.num (jsNat i)) ≠ .nil := by
    intro i hi1 hi2
    have : i = 1 := by omega
    subst this
    exact fun h => LV.noConfusion h
  exact ⟨hp, rfl, c6_len_at_unoccupied_boundary c6wt 1 hp rfl⟩

def c7proto (b : Nat) : Proto :=
  .mk { fileName := none, lineDefined := 0, lastLineDefined := 0, upValueCount := 0,
        paramCount := 0, isVarArg := false, maxStackSize := 2, insts := [mkInst 30 0 b 0],
        constants := [], lineInfo := [], locals := [], upValueNames := [] } []

def c7heap (b : Nat) : Heap :=
  { tables := [],
    upvals := [(5, { isOpen := true, owner := some 1, index := some 0, value := .undef })],
    closures := [(0, { proto := c7proto b, upvals := [] })],
    coros := [(1, { closure := 0, status := .running, args := .arr [], pc := 0,
                    top := jsNat 2, regs := [.num (jsNat 7), .num (jsNat 8)], openUps := [5] })],
    nextRef := 9 }

def c7after (b : Nat) : Heap :=
  { tables := [],
    upvals := [(5, { isOpen := false, owner := none, index := none, value := .num (jsNat 7) })],
    closures := [(0, { proto := c7proto b, upvals := [] })],
    coros := [(1, { closure := 0, status := .running, args := .arr [], pc := 1,
                    top := jsNat 2, regs := [.num (jsNat 7), .num (jsNat 8)], openUps := [5] })],
    nextRef := 9 }

/-- C7: code bug at B at least 3.  A frame with registers (7, 8), top 2 and
one open up-value on register 0 runs a single RETURN with A = 0.  The open
up-value is closed first in every case (the final heap captures 7).
B = 0 returns R[A..top], B = 1 returns nothing, and B = 2 returns the
single value R[A] (the source returns it bare; callers normalize it to a
one-value tuple).  But for every B at least 3 the source evaluates
`regs.slice` on the undeclared identifier `regs` (src/index.js:1816) and
crashes with a ReferenceError instead of returning the B - 1 values. -/
theorem c7_return_closes_then_returns_but_crashes_for_b3 :
    (exec vmTest 5 (.rCoro 1)).run.run (c7heap 0) =
      (.ok (.tup [.num (jsNat 7), .num (jsNat 8)]), c7after 0) ∧
    (exec vmTest 5 (.rCoro 1)).run.run (c7heap 1) =
      (.ok (.tup []), c7after 1) ∧
    (exec vmTest 5 (.rCoro 1)).run.run (c7heap 2) =
      (.ok (.num (jsNat 7)), c7after 2) ∧
    (exec vmTest 5 (.rCoro 1)).run.run (c7heap 3) =
      (.error (.jsErr "ReferenceError"), c7after 3) :=
  ⟨rfl, rfl, rfl, rfl⟩

def c8cd : CoroData :=
  { closure := 0, status := .running, args := .arr [], pc := 0,
    top := jsNat 0, regs := [.nil, .nil], openUps := [] }

def c8heap : Heap :=
  { tables := [], upvals := [], closures := [(0, { proto := c7proto 1, upvals := [] })],
    coros := [(1, c8cd)], nextRef := 2 }

def c8after : Heap :=
  { tables := [], upvals := [], closures := [(0, { proto := c7proto 1, upvals := [] })],
    coros := [(1, { closure := 0, status := .dead, args := .arr [], pc := 1,
                    top := jsNat 0, regs := [.nil, .nil], openUps := [] })],
    nextRef := 2 }

/-- C8 counterexample: a coroutine whose status is running is NOT rejected -
the source only checks for "dead" - so resume runs its frame (the pc
advances from 0 to 1 and the status ends dead) and returns (true), not the
(false, "cannot resume ...") pair the claim demands. -/
theorem c8_running_coroutine_is_resumed :
    (exec vmTest 8 (.rHost pos0 .coroutine_resume [.coro 1])).run.run c8heap =
      (.ok (.tup [.boolean true]), c8after) := rfl

/-- C8 (amended): only a DEAD coroutine is rejected: resume then returns
(false, "cannot resume dead coroutine") and leaves the whole heap - in
particular the coroutine's frame - unchanged except for allocating the
message string.  A running coroutine is resumed as if it were suspended
(see the counterexample). -/
theorem c8_dead_resume_rejected (vm : VM) (fuel : Nat) (pos : Pos) (id : Nat) (args : List LV)
    (σ : Heap) (cd : CoroData)
    (h1 : assocGet σ.coros id = some cd) (h2 : cd.status = .dead) :
    (exec vm (fuel + 1) (.rHost pos .coroutine_resume (.coro id :: args))).run.run σ =
      (.ok (.tup [.boolean false, .str σ.nextRef (asciiBytes "cannot resume dead coroutine")]),
       { σ with nextRef := σ.nextRef + 1 }) := by
  have e1 : (exec vm (fuel + 1) (.rHost pos .coroutine_resume (.coro id :: args))) = (do
      let cd ← getCoroM id
      if cd.status = .dead then do
        let s ← newLVString (asciiBytes "cannot resume dead coroutine")
        pure (.tup [.boolean false, s])
      else do
        setCoroM id { cd with status := .running }
        let result ← exec vm fuel (.rCoro id)
        let cd2 ← getCoroM id
        if cd2.status = .suspended then
          match result with
          | .tup vs => pure (.tup (.boolean true :: vs))
          | _ => throw (.jsErr "TypeError")
        else do
          setCoroM id { cd2 with status := .dead }
          pure (.tup (.boolean true :: normalize result)) : M LV) := rfl
  rw [e1]
  simp [getCoroM, newLVString, allocRef, h1, h2, estRun_get, estRun_set]
  rfl

def c8deadCd : CoroData :=
  { closure := 0, status := .dead, args := .arr [], pc := 0,
    top := jsNat 0, regs := [.nil, .nil], openUps := [] }

def c8deadHeap : Heap :=
  { tables := [], upvals := [], closures := [(0, { proto := c7proto 1, upvals := [] })],
    coros := [(1, c8deadCd)], nextRef := 2 }

theorem c8_dead_resume_rejected_witness :
    assocGet c8deadHeap.coros 1 = some c8deadCd ∧
    c8deadCd.status = .dead ∧
    (exec vmTest (7 + 1) (.rHost pos0 .coroutine_resume (.coro 1 :: []))).run.run c8deadHeap =
      (.ok (.tup [.boolean false,
                  .str c8deadHeap.nextRef (asciiBytes "cannot resume dead coroutine")]),
       { c8deadHeap with nextRef := c8deadHeap.nextRef + 1 }) :=
  ⟨rfl, rfl, c8_dead_resume_rejected vmTest 7 pos0 1 [] c8deadHeap c8deadCd rfl rfl⟩

/-- C9: confirmed.  Whenever the first four (zero-padded) bytes of the
input are not the Lua signature 1B 4C 75 61, the LuaVM constructor fails
with the chunk-format error "invalid luac file, incorrect signature" - a
LuaCFormatError, distinct from the runtime-error kind - before the globals
are built or any prototype is read; no VM value exists, so no instruction
of the chunk can ever execute. -/
theorem c9_bad_signature_fails_at_load (data : List Nat)
    (h : ¬ sliceBytes data 0 4 = LUA_SIGNATURE) :
    LuaVM.new data = .error (.formatErr "invalid luac file, incorrect signature") := by
  unfold LuaVM.new
  simp only [rdHeader_sig data h]
  rfl

theorem c9_bad_signature_fails_at_load_witness :
    (¬ sliceBytes [0, 0, 0, 0] 0 4 = LUA_SIGNATURE) ∧
    LuaVM.new [0, 0, 0, 0] = .error (.formatErr "invalid luac file, incorrect signature") :=
  ⟨by decide, c9_bad_signature_fails_at_load [0, 0, 0, 0] (by decide)⟩

/-- C10: confirmed.  For an open up-value cell: close captures the value
currently held by the aliased register and makes the cell closed (alias
fields nulled); afterwards get returns the captured value regardless of any
register file, set replaces only the cell's owned value and returns every
register file unchanged, and closing again - with any register file - is
the identity on the already-closed cell. -/
theorem c10_upvalue_close_one_way_idempotent (uv : UVData) (regs : List LV)
    (h : uv.isOpen = true) :
    (uvClose uv regs).isOpen = false ∧
    (uvClose uv regs).value = jsIndexOpt regs uv.index ∧
    (∀ regs2, uvGet (uvClose uv regs) regs2 = jsIndexOpt regs uv.index) ∧
    (∀ regs2 v, uvSet (uvClose uv regs) regs2 v =
      ({ isOpen := false, owner := none, index := none, value := v }, regs2)) ∧
    (∀ regs2, uvClose (uvClose uv regs) regs2 = uvClose uv regs) := by
  simp [uvClose, h, uvGet, uvSet]

def c10uv : UVData := { isOpen := true, owner := some 0, index := some 1, value := .undef }

def c10regs : List LV := [.nil, .num (jsNat 4)]

theorem c10_upvalue_close_one_way_idempotent_witness :
    c10uv.isOpen = true ∧
    uvGet (uvClose c10uv c10regs) [] = .num (jsNat 4) ∧
    uvSet (uvClose c10uv c10regs) [] (.boolean true) =
      ({ isOpen := false, owner := none, index := none, value := .boolean true }, []) ∧
    uvClose (uvClose c10uv c10regs) [] = uvClose c10uv c10regs := by
  have h := c10_upvalue_close_one_way_idempotent c10uv c10regs rfl
  exact ⟨rfl, h.2.2.1 [], h.2.2.2.1 [] (.boolean true), h.2.2.2.2 []⟩

end LuacInJs
